import Mathlib

/-!
Verification development for the infra-apix OpenAPI generator.

The development shallowly embeds the core of the repository:
the route registry (`registry.go`), the plugin hook engine (`plugin.go`),
and the OpenAPI document builder (`openapi/builder.go`, current revision).

Modelling conventions:
* Go strings are modelled as `List Char` (`GoStr`); Go's lexicographic
  byte comparison on ASCII strings coincides with the lexicographic
  order on character lists.
* Go heap pointers to schema objects are modelled by an explicit store
  `NodeId → SchemaObj` inside the build state; `*openapi3.SchemaRef`
  values are `SchemaRef` records holding a `$ref` string and an optional
  node id, exactly mirroring the Go struct.  Pointer sharing is sharing
  of node ids; in-place mutation is a store update.
* Go maps are modelled as association lists with overwrite-on-insert
  (`upsert`); map iteration of the plugin registry is modelled by
  quantifying over arbitrary orderings of the entry list.
* Reflection type descriptors (`reflect.Type`) are modelled by the
  inductive `GoType`.  Named struct types are represented by their
  identity (package path, type name) together with a type environment
  that maps the identity to the declared field list; this mirrors how
  `reflect` lets a named struct refer back to itself.  The well-known
  special-cased types `time.Time`, `uuid.UUID` and `decimal.Decimal`
  are dedicated constructors (the Go code detects them by package
  path and name).
* Plugin callbacks mutate their argument in place in Go; they are
  modelled as pure transformers returning the updated value or an error.
* The recursive schema builder is defined with an explicit fuel
  parameter; running out of fuel yields the distinguished error
  `BuildErr.outOfFuel`, and termination of the Go code corresponds to
  a proof that enough fuel makes this error impossible.
-/

namespace Apix

/-- Go strings, modelled as lists of characters. -/
abbrev GoStr := List Char

/-- Translation of Go `strings.Contains`: `sub` occurs as a contiguous
substring of `s`. -/
def goContains (s sub : GoStr) : Bool :=
  decide (sub <:+: s)

/-- Translation of Go `strings.Split(s, sep)` for a one-character
separator; splitting the empty string yields `[[]]`, as in Go. -/
def splitOnChar (sep : Char) : GoStr → List GoStr
  | [] => [[]]
  | c :: rest =>
    let r := splitOnChar sep rest
    if c = sep then [] :: r
    else
      match r with
      | [] => [[c]]
      | h :: t => (c :: h) :: t

/-- Go `strings.Split(tag, ",")`. -/
def splitOnComma : GoStr → List GoStr := splitOnChar ','

/-- ASCII upper-casing of one character, as Go `strings.ToUpper` acts on
the ASCII method strings the builder dispatches on. -/
def goUpperChar (c : Char) : Char :=
  if 'a' ≤ c ∧ c ≤ 'z' then Char.ofNat (c.toNat - 32) else c

/-- Translation of Go `strings.ToUpper` restricted to ASCII input. -/
def goToUpper (s : GoStr) : GoStr :=
  s.map goUpperChar

/-- Insertion of `x` into a `le`-sorted list, before the first element
it is `le`-below. -/
def insertLE {α : Type} (le : α → α → Bool) (x : α) : List α → List α
  | [] => [x]
  | y :: ys => if le x y then x :: y :: ys else y :: insertLE le x ys

/-- Stable insertion sort with respect to a boolean `le` predicate,
used to model the Go `sort.Slice` / `sort.SliceStable` / `sort.Ints`
calls.  (For `sort.Slice` the tie order is unspecified in Go; the
stable order is one admissible outcome.) -/
def sortByLE {α : Type} (le : α → α → Bool) : List α → List α
  | [] => []
  | x :: xs => insertLE le x (sortByLE le xs)

/-- Decidable equality for `Except` results. -/
instance {ε α : Type} [DecidableEq ε] [DecidableEq α] : DecidableEq (Except ε α) := fun a b =>
  match a, b with
  | .ok x, .ok y =>
    if h : x = y then .isTrue (by rw [h]) else .isFalse (fun e => by cases e; exact h rfl)
  | .error x, .error y =>
    if h : x = y then .isTrue (by rw [h]) else .isFalse (fun e => by cases e; exact h rfl)
  | .ok _, .error _ => .isFalse (fun e => by cases e)
  | .error _, .ok _ => .isFalse (fun e => by cases e)

/-- Go `any` values that flow through the builder unchanged (examples
supplied by callers) or are produced by `parseExampleValue`.  Floating
point example values are carried by their source text, since no claim
concerns their numeric value. -/
inductive GoVal where
  | vstr (s : GoStr)
  | vint (i : Int)
  | vuint (n : Nat)
  | vbool (b : Bool)
  | vfloatText (s : GoStr)
  | vext (id : Nat)
deriving DecidableEq, Repr

mutual

/-- Model of `reflect.Type` restricted to the kinds the builder
dispatches on.  `named` is a named struct type identified by its
package path and name (its fields live in the ambient `TypeEnv`);
`anonStruct` is an anonymous struct whose identity is structural.
`unsupported` stands for the remaining kinds (func, chan, …) that hit
the builder's default error branch; its argument is Go's rendering of
the type. -/
inductive GoType where
  | bool
  | int
  | int8
  | int16
  | int32
  | int64
  | uint
  | uint8
  | uint16
  | uint32
  | uint64
  | float32
  | float64
  | string
  | slice (elem : GoType)
  | array (elem : GoType)
  | map (key value : GoType)
  | iface
  | ptr (elem : GoType)
  | named (pkgPath name : GoStr)
  | anonStruct (fields : GoFields)
  | timeTime
  | uuid
  | decimal
  | unsupported (desc : GoStr)
deriving DecidableEq, Repr

/-- Declared field list of a struct type, in declaration order.  A
dedicated list type keeps the mutual induction first-order. -/
inductive GoFields where
  | nil
  | cons (f : GoStructField) (rest : GoFields)
deriving DecidableEq, Repr

/-- Model of `reflect.StructField`: name, package path (non-empty for
unexported fields), anonymous flag, the struct tags the builder reads,
and the field's type. -/
inductive GoStructField where
  | mk (name pkgPath : GoStr) (anonymous : Bool)
       (tagJson tagValidate tagBinding tagDescription tagFormat tagExample : GoStr)
       (fieldType : GoType)
deriving DecidableEq, Repr

end

namespace GoStructField

def name : GoStructField → GoStr
  | .mk n _ _ _ _ _ _ _ _ _ => n

def pkgPath : GoStructField → GoStr
  | .mk _ p _ _ _ _ _ _ _ _ => p

def anonymous : GoStructField → Bool
  | .mk _ _ a _ _ _ _ _ _ _ => a

def tagJson : GoStructField → GoStr
  | .mk _ _ _ j _ _ _ _ _ _ => j

def tagValidate : GoStructField → GoStr
  | .mk _ _ _ _ v _ _ _ _ _ => v

def tagBinding : GoStructField → GoStr
  | .mk _ _ _ _ _ b _ _ _ _ => b

def tagDescription : GoStructField → GoStr
  | .mk _ _ _ _ _ _ d _ _ _ => d

def tagFormat : GoStructField → GoStr
  | .mk _ _ _ _ _ _ _ f _ _ => f

def tagExample : GoStructField → GoStr
  | .mk _ _ _ _ _ _ _ _ e _ => e

def fieldType : GoStructField → GoType
  | .mk _ _ _ _ _ _ _ _ _ t => t

end GoStructField

/-- Environment of named struct declarations: identity (package path,
type name) to declared field list.  This plays the role of the ambient
Go program's type declarations that `reflect` traverses. -/
abbrev TypeEnv := List ((GoStr × GoStr) × GoFields)

/-- Shorthand turning a Lean string literal into a Go string. -/
def gs (s : String) : GoStr := s.data

/-- Conversion of the first-order field list to a Lean list. -/
def GoFields.toList : GoFields → List GoStructField
  | .nil => []
  | .cons f rest => f :: rest.toList

mutual

/-- Structural size of a type descriptor, used for the fuel bound of
the recursive schema builder. -/
def GoType.tsize : GoType → Nat
  | .slice e => e.tsize + 1
  | .array e => e.tsize + 1
  | .map _ v => v.tsize + 1
  | .ptr e => e.tsize + 1
  | .anonStruct fs => fs.fsize + 1
  | _ => 1

/-- Structural size of a field list. -/
def GoFields.fsize : GoFields → Nat
  | .nil => 1
  | .cons (.mk _ _ _ _ _ _ _ _ _ t) rest => t.tsize + rest.fsize + 1

end

/-- Check for Go `Kind() == reflect.String` (the only string-kinded
descriptor in the model is `GoType.string`). -/
def GoType.kindIsString : GoType → Bool
  | .string => true
  | _ => false

/-- Check for Go `Kind() == reflect.Uint8`, used for the byte-slice
special case. -/
def GoType.kindIsUint8 : GoType → Bool
  | .uint8 => true
  | _ => false

/-- Check matching the kind switch in `isFieldRequired`: pointer, slice,
map and interface kinds. -/
def GoType.isPtrSliceMapIface : GoType → Bool
  | .ptr _ => true
  | .slice _ => true
  | .map _ _ => true
  | .iface => true
  | _ => false

/-- Repeated pointer dereference, as in `parseExampleValue`'s leading
loop. -/
def GoType.stripAllPtr : GoType → GoType
  | .ptr e => e.stripAllPtr
  | t => t

/-- Translation of `jsonName` (builder.go): serialized field name and a
skip flag derived from the `json` struct tag. -/
def jsonName (field : GoStructField) : GoStr × Bool :=
  let tag := field.tagJson
  if tag = gs "-" then ([], true)
  else if tag = [] then (field.name, false)
  else
    match splitOnComma tag with
    | [] => (field.name, false)
    | p0 :: _ =>
      if p0 = gs "-" then ([], true)
      else if p0 ≠ [] then (p0, false)
      else (field.name, false)

/-- Translation of `hasRequiredTag` (builder.go): a `validate` or
`binding` tag containing `required`. -/
def hasRequiredTag (field : GoStructField) : Bool :=
  goContains field.tagValidate (gs "required") ||
    goContains field.tagBinding (gs "required")

/-- Translation of `isFieldRequired` (builder.go). -/
def isFieldRequired (field : GoStructField) : Bool :=
  if goContains field.tagJson (gs "omitempty") then
    if hasRequiredTag field then true else false
  else if hasRequiredTag field then true
  else !field.fieldType.isPtrSliceMapIface

/-- Value of a decimal digit. -/
def digitVal (c : Char) : Nat := c.toNat - '0'.toNat

/-- Check for a decimal digit. -/
def isDigitChar (c : Char) : Bool := '0' ≤ c ∧ c ≤ '9'

/-- Decimal reading of a digit prefix. -/
def readDigits (s : GoStr) : Nat :=
  (s.takeWhile isDigitChar).foldl (fun acc c => acc * 10 + digitVal c) 0

/-- Approximation of Go `fmt.Sscanf(s, "%d", &int64)`: an optional sign
followed by at least one digit scans the leading digit run; anything
else fails. -/
def goScanInt (s : GoStr) : Option Int :=
  match s with
  | '-' :: rest => if (rest.takeWhile isDigitChar) ≠ [] then some (-(readDigits rest : Int)) else none
  | '+' :: rest => if (rest.takeWhile isDigitChar) ≠ [] then some (readDigits rest : Int) else none
  | _ => if (s.takeWhile isDigitChar) ≠ [] then some (readDigits s : Int) else none

/-- Approximation of Go `fmt.Sscanf(s, "%d", &uint64)`: a nonempty
digit prefix scans. -/
def goScanUint (s : GoStr) : Option Nat :=
  if (s.takeWhile isDigitChar) ≠ [] then some (readDigits s) else none

/-- Approximation of the success test of Go `fmt.Sscanf(s, "%f", ...)`:
an optional sign followed by a digit.  The parsed float64 itself is
never inspected by the builder and is carried textually. -/
def goScanFloatOk (s : GoStr) : Bool :=
  match s with
  | '-' :: c :: _ => isDigitChar c
  | '+' :: c :: _ => isDigitChar c
  | c :: _ => isDigitChar c
  | [] => false

/-- Translation of `parseExampleValue` (builder.go): convert the string
example from the struct tag to a typed value according to the field's
(pointer-stripped) kind.  Float values are represented by their source
text. -/
def parseExampleValue (exampleStr : GoStr) (fieldType : GoType) : GoVal :=
  match fieldType.stripAllPtr with
  | .string => .vstr exampleStr
  | .int | .int8 | .int16 | .int32 | .int64 =>
    match goScanInt exampleStr with
    | some v => .vint v
    | none => .vstr exampleStr
  | .uint | .uint8 | .uint16 | .uint32 | .uint64 =>
    match goScanUint exampleStr with
    | some v => .vuint v
    | none => .vstr exampleStr
  | .float32 | .float64 =>
    if goScanFloatOk exampleStr then .vfloatText exampleStr else .vstr exampleStr
  | .bool =>
    if exampleStr = gs "true" then .vbool true
    else if exampleStr = gs "false" then .vbool false
    else .vstr exampleStr
  | _ => .vstr exampleStr

/-- Identity of a heap-allocated schema object. -/
abbrev NodeId := Nat

/-- Model of `*openapi3.SchemaRef`: a `$ref` string plus an optional
pointer (node id) to a schema value.  The current builder always
produces refs with an empty `$ref` and a shared value pointer. -/
structure SchemaRef where
  ref : GoStr := []
  value : Option NodeId := none
deriving DecidableEq, Repr, Inhabited

/-- Model of the fields of `openapi3.Schema` that the builder reads or
writes.  `typ` is the nilable `Type *Types` field; `properties` is the
nilable property map (association list in insertion order). -/
structure SchemaObj where
  typ : Option (List GoStr) := none
  format : GoStr := []
  description : GoStr := []
  exampleVal : Option GoVal := none
  nullable : Bool := false
  properties : Option (List (GoStr × SchemaRef)) := none
  required : List GoStr := []
  items : Option SchemaRef := none
  additionalProperties : Option SchemaRef := none
  allOf : List SchemaRef := []
deriving DecidableEq, Repr, Inhabited

/-- Model of `openapi3.NewBoolSchema()`. -/
def NewBoolSchema : SchemaObj := { typ := some [gs "boolean"] }

/-- Model of `openapi3.NewIntegerSchema()`. -/
def NewIntegerSchema : SchemaObj := { typ := some [gs "integer"] }

/-- Model of `openapi3.NewFloat64Schema()`. -/
def NewFloat64Schema : SchemaObj := { typ := some [gs "number"] }

/-- Model of `openapi3.NewStringSchema()`. -/
def NewStringSchema : SchemaObj := { typ := some [gs "string"] }

/-- Model of `openapi3.NewArraySchema()`. -/
def NewArraySchema : SchemaObj := { typ := some [gs "array"] }

/-- Model of `openapi3.NewObjectSchema()`: object type with an
initialized (empty) property map. -/
def NewObjectSchema : SchemaObj := { typ := some [gs "object"], properties := some [] }

/-- Translation of `schemaType` (builder.go): initialize the `Type`
field if nil, then overwrite it with the singleton `t` when `t` is
non-empty. -/
def schemaType (schema : SchemaObj) (t : GoStr) : SchemaObj :=
  let schema := if schema.typ = none then { schema with typ := some [] } else schema
  if t ≠ [] then { schema with typ := some [t] } else schema

/-- Go-map insertion on an association list: overwrite the first entry
with the same key, or append a fresh entry. -/
def mapSet {α β : Type} [BEq α] (k : α) (v : β) : List (α × β) → List (α × β)
  | [] => [(k, v)]
  | (k', v') :: rest => if k' == k then (k, v) :: rest else (k', v') :: mapSet k v rest

/-- Heap of schema objects created during one build. -/
abbrev Store := List (NodeId × SchemaObj)

/-- Build-scoped mutable state of the `Builder`: the allocation counter
with the heap of schema objects, the `schemaCache` keyed by type
identity, and the document's component schema table
(`doc.Components.Schemas`), which the builder writes while recursing. -/
structure BuildState where
  nextId : NodeId := 0
  store : Store := []
  schemaCache : List (GoType × SchemaRef) := []
  schemas : List (GoStr × SchemaRef) := []
deriving DecidableEq, Repr, Inhabited

/-- Allocation of a fresh schema object, modelling Go's `&Schema{…}`. -/
def BuildState.alloc (st : BuildState) (s : SchemaObj) : NodeId × BuildState :=
  (st.nextId,
    { st with nextId := st.nextId + 1, store := (st.nextId, s) :: st.store })

/-- In-place update of a schema object through its pointer. -/
def BuildState.setNode (st : BuildState) (id : NodeId) (s : SchemaObj) : BuildState :=
  { st with store := mapSet id s st.store }

/-- Dereference of a schema pointer. -/
def BuildState.getNode (st : BuildState) (id : NodeId) : Option SchemaObj :=
  st.store.lookup id

/-- Translation of the `schemaRef` helper (builder.go): wrap a freshly
allocated schema value in a `SchemaRef` with no `$ref` string. -/
def schemaRef (st : BuildState) (s : SchemaObj) : BuildState × SchemaRef :=
  let (id, st) := st.alloc s
  (st, { ref := [], value := some id })

/-- Errors of the schema builder and document assembler.  `outOfFuel`
is an artifact of the fueled model and never occurs with enough fuel;
the remaining constructors carry the data Go formats into the error
string. -/
inductive BuildErr where
  | outOfFuel
  | unsupportedMapKey (key : GoType)
  | unsupportedType (t : GoType)
  | unknownNamed (pkgPath name : GoStr)
  | unsupportedMethod (m : GoStr)
  | hookErr (msg : GoStr)
deriving DecidableEq, Repr

/-- Model of `apix.HeaderRef`. -/
structure HeaderRef where
  name : GoStr := []
  description : GoStr := []
  schemaType : GoStr := []
  required : Bool := false
deriving DecidableEq, Repr, Inhabited

/-- Model of `apix.Parameter`; `inLoc` is the Go field `In`. -/
structure Parameter where
  name : GoStr := []
  inLoc : GoStr := []
  description : GoStr := []
  required : Bool := false
  schemaType : GoStr := []
  exampleVal : Option GoVal := none
deriving DecidableEq, Repr, Inhabited

/-- Model of `apix.SecurityRequirement`. -/
structure SecurityRequirement where
  name : GoStr := []
  scopes : List GoStr := []
deriving DecidableEq, Repr, Inhabited

/-- Model of `apix.ResponseRef`. -/
structure ResponseRef where
  modelType : Option GoType := none
  explicitModelType : Option GoType := none
  description : GoStr := []
  contentType : GoStr := []
  exampleVal : Option GoVal := none
  headers : List HeaderRef := []
deriving DecidableEq, Repr, Inhabited

/-- Model of `apix.RouteRef`.  The `Responses` Go map is an association
list keyed by status code; `HandlerType` (debug-only reflection data)
is omitted. -/
structure RouteRef where
  method : GoStr := []
  path : GoStr := []
  operationId : GoStr := []
  summary : GoStr := []
  description : GoStr := []
  tags : List GoStr := []
  deprecated : Bool := false
  requestType : Option GoType := none
  requestContentType : GoStr := []
  explicitRequestModel : Option GoType := none
  requestExampleVal : Option GoVal := none
  responses : List (Int × ResponseRef) := []
  security : List SecurityRequirement := []
  successHeaders : List (Int × List HeaderRef) := []
  successStatus : Int := 0
  bodyRequired : Bool := false
  parameters : List Parameter := []
deriving DecidableEq, Repr, Inhabited

/-- Go constant `MethodGet`. -/
def MethodGet : GoStr := gs "GET"

/-- Go constant `MethodPost`. -/
def MethodPost : GoStr := gs "POST"

/-- Go constant `MethodPut`. -/
def MethodPut : GoStr := gs "PUT"

/-- Go constant `MethodPatch`. -/
def MethodPatch : GoStr := gs "PATCH"

/-- Go constant `MethodDelete`. -/
def MethodDelete : GoStr := gs "DELETE"

/-- Translation of `DefaultSuccessStatus` (registry.go). -/
def DefaultSuccessStatus (method : GoStr) : Int :=
  if method = MethodPost then 201
  else if method = MethodDelete then 204
  else 200

/-- Translation of `RegisterRoute` (registry.go).  The global registry
is threaded explicitly as the list of stored routes.  Note that the
code defaults the success status and appends — it does not consult the
plugin registry and cannot fail. -/
def RegisterRoute (routes : List RouteRef) (ref : RouteRef) : List RouteRef :=
  let ref :=
    if ref.successStatus = 0 then
      { ref with successStatus := DefaultSuccessStatus ref.method }
    else ref
  routes ++ [ref]

/-- Sort predicate of `Snapshot`: by path, then by method, both
lexicographic.  This is the `le` complement of the Go `less`
comparator. -/
def routeLE (a b : RouteRef) : Bool :=
  if a.path = b.path then decide (a.method ≤ b.method) else decide (a.path < b.path)

/-- Translation of `Snapshot` (registry.go): a copy of the registered
routes sorted by path, then method.  Go's `sort.Slice` is an
unspecified-tie-order sort; the model uses a stable merge sort, one of
the admissible outcomes. -/
def Snapshot (routes : List RouteRef) : List RouteRef :=
  sortByLE routeLE routes

/-- Model of `openapi3.Server` (URL and description only). -/
structure ServerRec where
  url : GoStr := []
  description : GoStr := []
deriving DecidableEq, Repr, Inhabited

/-- Model of `openapi3.Tag`. -/
structure TagRec where
  name : GoStr := []
  description : GoStr := []
deriving DecidableEq, Repr, Inhabited

/-- Security schemes are opaque external data: the builder only stores
and copies them. -/
abbrev SecScheme := Nat

/-- Model of `openapi3.Info` (title and version, the fields the
builder sets). -/
structure Info where
  title : GoStr := []
  version : GoStr := []
deriving DecidableEq, Repr, Inhabited

/-- Model of `openapi3.Parameter` as emitted for route parameters.  The
parameter's schema node is freshly allocated and never shared, so it is
carried by value. -/
structure OpParameter where
  name : GoStr := []
  inLoc : GoStr := []
  description : GoStr := []
  required : Bool := false
  schema : SchemaObj := {}
  exampleVal : Option GoVal := none
deriving DecidableEq, Repr, Inhabited

/-- Model of `openapi3.Header` as emitted for response headers; the
schema node is fresh and unshared, carried by value. -/
structure OpHeader where
  description : GoStr := []
  required : Bool := false
  schema : SchemaObj := {}
deriving DecidableEq, Repr, Inhabited

/-- Model of `openapi3.MediaType`. -/
structure MediaTypeObj where
  schema : Option SchemaRef := none
  exampleVal : Option GoVal := none
deriving DecidableEq, Repr, Inhabited

/-- Model of `openapi3.RequestBody` (fields the builder sets). -/
structure RequestBodyObj where
  required : Bool := false
  content : List (GoStr × MediaTypeObj) := []
deriving DecidableEq, Repr, Inhabited

/-- Model of `openapi3.Response`; the description pointer is `Option`
since `ensureResponse` and `buildResponse` both set it but Go
distinguishes a nil pointer. -/
structure ResponseObj where
  description : Option GoStr := none
  content : List (GoStr × MediaTypeObj) := []
  headers : List (GoStr × OpHeader) := []
deriving DecidableEq, Repr, Inhabited

/-- Model of `openapi3.SecurityRequirement` (scheme name → scopes). -/
abbrev SecurityReqOut := List (GoStr × List GoStr)

/-- Model of `openapi3.Operation` (fields the builder sets).
`responses` is keyed by integer status code; Go keys the map by the
decimal string of the status, an equivalent keying. -/
structure Operation where
  operationId : GoStr := []
  summary : GoStr := []
  description : GoStr := []
  deprecated : Bool := false
  tags : List GoStr := []
  parameters : List OpParameter := []
  security : Option (List SecurityReqOut) := none
  requestBody : Option RequestBodyObj := none
  responses : List (Int × ResponseObj) := []
deriving DecidableEq, Repr, Inhabited

/-- Model of `openapi3.PathItem`: one optional operation per supported
method. -/
structure PathItem where
  getOp : Option Operation := none
  postOp : Option Operation := none
  putOp : Option Operation := none
  patchOp : Option Operation := none
  deleteOp : Option Operation := none
deriving DecidableEq, Repr, Inhabited

/-- Model of `openapi3.Components` (fields the builder touches). -/
structure Components where
  schemas : List (GoStr × SchemaRef) := []
  securitySchemes : List (GoStr × SecScheme) := []
deriving DecidableEq, Repr, Inhabited

/-- Model of the assembled `openapi3.T` document. -/
structure Doc where
  openapi : GoStr := []
  info : Info := {}
  servers : List ServerRec := []
  components : Components := {}
  paths : List (GoStr × PathItem) := []
  security : List SecurityReqOut := []
  tags : List TagRec := []
deriving DecidableEq, Repr, Inhabited

/-- Model of the `apix.Plugin` interface: a name and the three hook
callbacks.  In Go the callbacks mutate their argument in place and may
return an error; they are modelled as pure transformers. -/
structure Plugin where
  name : GoStr
  onRouteRegister : RouteRef → Except GoStr RouteRef
  onSchemaGenerate : GoStr → SchemaObj → Except GoStr SchemaObj
  onSpecBuild : Doc → Except GoStr Doc

/-- Model of `apix.BasePlugin`: no-op callbacks. -/
def BasePlugin (pluginName : GoStr) : Plugin where
  name := pluginName
  onRouteRegister := fun r => .ok r
  onSchemaGenerate := fun _ s => .ok s
  onSpecBuild := fun d => .ok d

/-- Sort predicate of `getPluginsSorted`: ascending plugin name. -/
def pluginLE (p q : Plugin) : Bool :=
  decide (p.name ≤ q.name)

/-- Translation of `getPluginsSorted` (plugin.go): the registry map's
entries sorted by name.  The list argument stands for the map contents
in an arbitrary iteration order. -/
def getPluginsSorted (plugins : List Plugin) : List Plugin :=
  sortByLE pluginLE plugins

/-- Translation of `executeOnRouteRegister` (plugin.go): run every
plugin's `OnRouteRegister` in name order, stopping at the first
error. -/
def executeOnRouteRegister (plugins : List Plugin) (ref : RouteRef) :
    Except GoStr RouteRef :=
  (getPluginsSorted plugins).foldlM (fun r p => p.onRouteRegister r) ref

/-- Translation of `ExecuteOnSchemaGenerate` (plugin.go). -/
def ExecuteOnSchemaGenerate (plugins : List Plugin) (typeName : GoStr)
    (schema : SchemaObj) : Except GoStr SchemaObj :=
  (getPluginsSorted plugins).foldlM (fun s p => p.onSchemaGenerate typeName s) schema

/-- Translation of `ExecuteOnSpecBuild` (plugin.go). -/
def ExecuteOnSpecBuild (plugins : List Plugin) (doc : Doc) : Except GoStr Doc :=
  (getPluginsSorted plugins).foldlM (fun d p => p.onSpecBuild d) doc

/-- Replacement map of `sanitizeComponentName` (builder.go): the
characters the Go `strings.NewReplacer` maps to underscores. -/
def sanitizeChar (c : Char) : Char :=
  if c = '-' ∨ c = '.' ∨ c = ' ' ∨ c = '[' ∨ c = ']' ∨ c = '<' ∨ c = '>' ∨ c = ',' then '_'
  else c

/-- Translation of `sanitizeComponentName` (builder.go). -/
def sanitizeComponentName (name : GoStr) : GoStr :=
  name.map sanitizeChar

/-- Translation of `componentName` (builder.go): empty for unnamed
types, otherwise the sanitized last package-path segment joined to the
type name with an underscore. -/
def componentName : GoType → GoStr
  | .named pkgPath name =>
    if name = [] then []
    else if pkgPath = [] then sanitizeComponentName name
    else
      let parts := splitOnChar '/' pkgPath
      let pkgPart := parts.getLastD []
      sanitizeComponentName (pkgPart ++ '_' :: name)
  | _ => []

/-- Identifier characters accepted after the `:` marker by
`normalizePath` (builder.go). -/
def isPathIdentChar (c : Char) : Bool :=
  ('a' ≤ c ∧ c ≤ 'z') ∨ ('A' ≤ c ∧ c ≤ 'Z') ∨ ('0' ≤ c ∧ c ≤ '9') ∨ c = '_' ∨ c = '-'

mutual

/-- Character loop of `normalizePath` (builder.go) outside a token:
every character except the `:` marker is copied verbatim. -/
def normPlain : GoStr → GoStr
  | [] => []
  | ':' :: rest => '\x7b' :: normTok rest
  | c :: rest => c :: normPlain rest

/-- Character loop of `normalizePath` (builder.go) inside a `:`-token:
identifier characters are copied; the first non-identifier character
(or the end of input) closes the brace and resumes plain scanning —
with a directly following `:` opening the next token. -/
def normTok : GoStr → GoStr
  | [] => ['\x7d']
  | c :: rest =>
    if isPathIdentChar c then c :: normTok rest
    else if c = ':' then '\x7d' :: '\x7b' :: normTok rest
    else '\x7d' :: c :: normPlain rest

end

/-- Translation of `normalizePath` (builder.go): rewrite `:name` path
parameters to brace-delimited parameters, leaving everything else —
including already-braced parameters and `*` wildcards — unchanged. -/
def normalizePath (path : GoStr) : GoStr :=
  normPlain path

/-- Declared fields of a struct descriptor, as `reflect` resolves them:
a named struct's fields come from the ambient environment, an anonymous
struct carries them structurally.  `none` (an unknown named type) is
impossible in Go, where a `reflect.Type` always resolves. -/
def structFields (env : TypeEnv) : GoType → Option GoFields
  | .named pkgPath name => env.lookup (pkgPath, name)
  | .anonStruct fields => some fields
  | _ => none

/-- Translation of `wrapNullable` (builder.go): for a pure `$ref`, a
fresh schema composing the reference via `allOf` with the nullable
flag; for a value pointer, a fresh clone of the pointed-to schema with
the nullable flag set.  The shared base schema is never written. -/
def wrapNullable (st : BuildState) (ref : SchemaRef) : BuildState × SchemaRef :=
  if ref.ref ≠ [] ∧ ref.value = none then
    schemaRef st { nullable := true, allOf := [ref] }
  else
    match ref.value with
    | none => (st, ref)
    | some id =>
      match st.getNode id with
      | none => (st, ref)
      | some s => schemaRef st { s with nullable := true }

/-- Results of the four mutually recursive builder functions at a given
fuel level.  The Go recursion terminates through the cache; the model
iterates a one-step functional over the fuel so that its evaluation is
plain beta reduction. -/
structure BuilderFns where
  fromType : BuildState → GoType → Except BuildErr (BuildState × SchemaRef)
  nonNull : BuildState → GoType → Except BuildErr (BuildState × SchemaRef)
  structOf : BuildState → GoType → Except BuildErr (BuildState × SchemaRef)
  popFields : BuildState → NodeId → SchemaObj → GoFields → Except BuildErr (BuildState × SchemaObj)

/-- Out-of-fuel base case: only an empty field list succeeds. -/
def builderZero : BuilderFns where
  fromType _ _ := .error .outOfFuel
  nonNull _ _ := .error .outOfFuel
  structOf _ _ := .error .outOfFuel
  popFields st _ schema fields :=
    match fields with
    | .nil => .ok (st, schema)
    | .cons _ _ => .error .outOfFuel

/-- One step of the schema builder (builder.go), with every recursive
call going through `prev`:

* `fromType` translates `schemaRefFromType`: strip leading pointer
  layers recording nullability, build the base schema, and wrap it when
  nullability was recorded.
* `nonNull` translates `schemaRefNonNull`: cache check, then dispatch
  on the structural kind.
* `structOf` translates `buildStructSchema`: for a named type, allocate
  the (empty) object schema, publish it to the component table and the
  cache before populating the fields, then populate and run the
  schema-generation hooks; for an anonymous type, populate an inline
  schema and cache it.
* `popFields` translates `populateStructSchema`.  The schema being
  populated is carried by value and written back through its pointer
  (`sid`) after each field, mirroring the in-place mutation; the
  description/example tag writes go through the child ref's pointer and
  can therefore write a shared node, exactly as in Go. -/
def builderSucc (env : TypeEnv) (plugins : List Plugin) (prev : BuilderFns) : BuilderFns where
  fromType st t := do
    let nullable : Bool := t matches .ptr _
    let (st, baseRef) ← prev.nonNull st t.stripAllPtr
    if nullable then pure (wrapNullable st baseRef) else pure (st, baseRef)
  nonNull st t :=
    match st.schemaCache.lookup t with
    | some cached => .ok (st, cached)
    | none =>
      match t with
      | .bool => .ok (schemaRef st NewBoolSchema)
      | .int => .ok (schemaRef st { NewIntegerSchema with format := gs "int32" })
      | .int8 => .ok (schemaRef st { NewIntegerSchema with format := gs "int32" })
      | .int16 => .ok (schemaRef st { NewIntegerSchema with format := gs "int32" })
      | .int32 => .ok (schemaRef st { NewIntegerSchema with format := gs "int32" })
      | .int64 => .ok (schemaRef st { NewIntegerSchema with format := gs "int64" })
      | .uint => .ok (schemaRef st { NewIntegerSchema with format := gs "int32" })
      | .uint8 => .ok (schemaRef st { NewIntegerSchema with format := gs "int32" })
      | .uint16 => .ok (schemaRef st { NewIntegerSchema with format := gs "int32" })
      | .uint32 => .ok (schemaRef st { NewIntegerSchema with format := gs "int32" })
      | .uint64 => .ok (schemaRef st { NewIntegerSchema with format := gs "int64" })
      | .float32 => .ok (schemaRef st { NewFloat64Schema with format := gs "float" })
      | .float64 => .ok (schemaRef st NewFloat64Schema)
      | .string => .ok (schemaRef st NewStringSchema)
      | .slice elem =>
        if elem.kindIsUint8 then
          .ok (schemaRef st { NewStringSchema with format := gs "byte" })
        else do
          let (st, itemRef) ← prev.fromType st elem
          .ok (schemaRef st { NewArraySchema with items := some itemRef })
      | .array elem => do
        let (st, itemRef) ← prev.fromType st elem
        .ok (schemaRef st { NewArraySchema with items := some itemRef })
      | .map key value =>
        if !key.kindIsString then .error (.unsupportedMapKey key)
        else do
          let (st, valueRef) ← prev.fromType st value
          .ok (schemaRef st { NewObjectSchema with additionalProperties := some valueRef })
      | .iface => .ok (schemaRef st NewObjectSchema)
      | .timeTime => .ok (schemaRef st { NewStringSchema with format := gs "date-time" })
      | .uuid => .ok (schemaRef st { NewStringSchema with format := gs "uuid" })
      | .decimal =>
        .ok (schemaRef st
          { NewStringSchema with
              format := gs "decimal",
              description := gs "Decimal number represented as string for precision",
              exampleVal := some (.vstr (gs "123.45")) })
      | .named pkgPath name => prev.structOf st (.named pkgPath name)
      | .anonStruct fields => prev.structOf st (.anonStruct fields)
      | .ptr e => .error (.unsupportedType (.ptr e))
      | .unsupported d => .error (.unsupportedType (.unsupported d))
  structOf st t :=
    match structFields env t with
    | none =>
      match t with
      | .named pkgPath name => .error (.unknownNamed pkgPath name)
      | other => .error (.unsupportedType other)
    | some fields =>
      let name := componentName t
      if name ≠ [] then
        match st.schemaCache.lookup t with
        | some r => .ok (st, r)
        | none =>
          let schema : SchemaObj := { NewObjectSchema with properties := some [], required := [], allOf := [] }
          let (sid, st) := st.alloc schema
          let sref : SchemaRef := { ref := [], value := some sid }
          let st := { st with schemas := mapSet name sref st.schemas }
          let st := { st with schemaCache := (t, sref) :: st.schemaCache }
          do
          let (st, popSchema) ← prev.popFields st sid schema fields
          match ExecuteOnSchemaGenerate plugins name popSchema with
          | .error e => .error (.hookErr e)
          | .ok hooked =>
            let st := st.setNode sid hooked
            .ok (st, sref)
      else do
        let schema : SchemaObj := { NewObjectSchema with properties := some [], required := [] }
        let (sid, st) := st.alloc schema
        let (st, _popSchema) ← prev.popFields st sid schema fields
        let ref : SchemaRef := { ref := [], value := some sid }
        let st := { st with schemaCache := (t, ref) :: st.schemaCache }
        .ok (st, ref)
  popFields st sid schema fields :=
    match fields with
    | .nil => .ok (st, schema)
    | .cons field rest =>
      if field.pkgPath ≠ [] ∧ !field.anonymous then
        prev.popFields st sid schema rest
      else if field.anonymous then do
        let (st, r) ← prev.fromType st field.fieldType
        let schema := { schema with allOf := schema.allOf ++ [r] }
        let st := st.setNode sid schema
        prev.popFields st sid schema rest
      else
        match jsonName field with
        | (_, true) => prev.popFields st sid schema rest
        | (jname, false) => do
          let schema := if schema.properties = none then { schema with properties := some [] } else schema
          let isFile : Bool := field.tagFormat = gs "binary" ∨ field.tagFormat = gs "file"
          let (st, childRef) ←
            if isFile then
              pure (schemaRef st { NewStringSchema with format := gs "binary" })
            else
              prev.fromType st field.fieldType
          let schema :=
            { schema with properties := some (mapSet jname childRef (schema.properties.getD [])) }
          let st :=
            if field.tagDescription ≠ [] then
              match childRef.value with
              | some cid =>
                match st.getNode cid with
                | some cs => st.setNode cid { cs with description := field.tagDescription }
                | none => st
              | none => st
            else st
          let st :=
            if field.tagExample ≠ [] ∧ !isFile then
              match childRef.value with
              | some cid =>
                match st.getNode cid with
                | some cs =>
                  st.setNode cid { cs with exampleVal := some (parseExampleValue field.tagExample field.fieldType) }
                | none => st
              | none => st
            else st
          let schema :=
            if isFieldRequired field then { schema with required := schema.required ++ [jname] }
            else schema
          let st := st.setNode sid schema
          prev.popFields st sid schema rest

/-- Iterate of the builder step over the fuel. -/
def builderAt (env : TypeEnv) (plugins : List Plugin) : Nat → BuilderFns
  | 0 => builderZero
  | fuel + 1 => builderSucc env plugins (builderAt env plugins fuel)

/-- Translation of `schemaRefFromType` (builder.go); see `builderSucc`. -/
def schemaRefFromType (env : TypeEnv) (plugins : List Plugin) (fuel : Nat)
    (st : BuildState) (t : GoType) : Except BuildErr (BuildState × SchemaRef) :=
  (builderAt env plugins fuel).fromType st t

/-- Translation of `schemaRefNonNull` (builder.go); see `builderSucc`. -/
def schemaRefNonNull (env : TypeEnv) (plugins : List Plugin) (fuel : Nat)
    (st : BuildState) (t : GoType) : Except BuildErr (BuildState × SchemaRef) :=
  (builderAt env plugins fuel).nonNull st t

/-- Translation of `buildStructSchema` (builder.go); see `builderSucc`. -/
def buildStructSchema (env : TypeEnv) (plugins : List Plugin) (fuel : Nat)
    (st : BuildState) (t : GoType) : Except BuildErr (BuildState × SchemaRef) :=
  (builderAt env plugins fuel).structOf st t

/-- Translation of `populateStructSchema` (builder.go); see `builderSucc`. -/
def populateStructSchema (env : TypeEnv) (plugins : List Plugin) (fuel : Nat)
    (st : BuildState) (sid : NodeId) (schema : SchemaObj) (fields : GoFields) :
    Except BuildErr (BuildState × SchemaObj) :=
  (builderAt env plugins fuel).popFields st sid schema fields

/-- Translation of `schemaFromTypes` (builder.go): prefer the explicit
override type, fall back to the inferred type, build nothing for
neither. -/
def schemaFromTypes (env : TypeEnv) (plugins : List Plugin) (fuel : Nat)
    (st : BuildState) (explicit inferred : Option GoType) :
    Except BuildErr (BuildState × Option SchemaRef) :=
  let t := match explicit with
    | some e => some e
    | none => inferred
  match t with
  | none => .ok (st, none)
  | some t => do
    let (st, r) ← schemaRefFromType env plugins fuel st t
    .ok (st, some r)

/-- Translation of `buildRequestBody` (builder.go). -/
def buildRequestBody (env : TypeEnv) (plugins : List Plugin) (fuel : Nat)
    (st : BuildState) (ref : RouteRef) :
    Except BuildErr (BuildState × Option RequestBodyObj) := do
  let (st, schemaRef?) ← schemaFromTypes env plugins fuel st ref.explicitRequestModel ref.requestType
  match schemaRef? with
  | none => .ok (st, none)
  | some sref =>
    let contentType := if ref.requestContentType = [] then gs "application/json" else ref.requestContentType
    let media : MediaTypeObj := { schema := some sref, exampleVal := ref.requestExampleVal }
    let content := [(contentType, media)]
    let required :=
      if ref.bodyRequired then ref.bodyRequired
      else ref.requestType.isSome || ref.explicitRequestModel.isSome
    .ok (st, some { required := required, content := content })

/-- Translation of `defaultResponseDescription` (builder.go). -/
def defaultResponseDescription (status : Int) : GoStr :=
  if status = 200 then gs "OK"
  else if status = 201 then gs "Created"
  else if status = 202 then gs "Accepted"
  else if status = 204 then gs "No Content"
  else if status = 400 then gs "Bad Request"
  else if status = 401 then gs "Unauthorized"
  else if status = 403 then gs "Forbidden"
  else if status = 404 then gs "Not Found"
  else if status = 500 then gs "Internal Server Error"
  else []

/-- Translation of `buildResponse` (builder.go). -/
def buildResponse (env : TypeEnv) (plugins : List Plugin) (fuel : Nat)
    (st : BuildState) (status : Int) (ref : ResponseRef) :
    Except BuildErr (BuildState × ResponseObj) := do
  let (st, schemaRef?) ← schemaFromTypes env plugins fuel st ref.explicitModelType ref.modelType
  let description := if ref.description = [] then defaultResponseDescription status else ref.description
  let content : List (GoStr × MediaTypeObj) :=
    match schemaRef? with
    | none => []
    | some sref =>
      let ct := if ref.contentType = [] then gs "application/json" else ref.contentType
      [(ct, { schema := some sref, exampleVal := ref.exampleVal })]
  let headers := ref.headers.foldl
    (fun acc hdr =>
      let hs := schemaType {} hdr.schemaType
      let hs := if hs.typ = none ∨ hs.typ = some [] then schemaType hs (gs "string") else hs
      mapSet hdr.name
        ({ description := hdr.description, required := hdr.required, schema := hs } : OpHeader) acc)
    ([] : List (GoStr × OpHeader))
  .ok (st, { description := some description, content := content, headers := headers })

/-- Sort predicate for operation parameters (builder.go `addRoute`):
by location, then by name, both ascending.  This is the `le` complement
of the Go `less` comparator passed to `sort.SliceStable`. -/
def paramLE (a b : Parameter) : Bool :=
  if a.inLoc = b.inLoc then decide (a.name ≤ b.name) else decide (a.inLoc < b.inLoc)

/-- Translation of `ensureResponse` (builder.go): add a
description-only response unless the status is already present. -/
def ensureResponse (op : Operation) (status : Int) (description : GoStr) : Operation :=
  if (op.responses.lookup status).isSome then op
  else { op with responses := mapSet status ({ description := some description } : ResponseObj) op.responses }

/-- Translation of `addDXDefaults` (builder.go): synthesize the
`Location` header on an existing 201 response of a POST route, and
default 401/403 responses when the route carries security
requirements. -/
def addDXDefaults (ref : RouteRef) (op : Operation) : Operation :=
  let op :=
    if ref.method = MethodPost then
      match op.responses.lookup 201 with
      | some resp =>
        if (resp.headers.lookup (gs "Location")).isSome then op
        else
          let schema := schemaType {} (gs "string")
          let schema := { schema with format := gs "uri" }
          let header : OpHeader :=
            { description := gs "URI of the newly created resource", required := true, schema := schema }
          { op with responses :=
              mapSet 201 { resp with headers := mapSet (gs "Location") header resp.headers } op.responses }
      | none => op
    else op
  if ref.security ≠ [] then
    ensureResponse (ensureResponse op 401 (gs "Unauthorized")) 403 (gs "Forbidden")
  else op

/-- Operation-building half of `addRoute` (builder.go): metadata,
sorted parameters, security, request body, responses in ascending
status order, and the DX defaults. -/
def buildOperation (env : TypeEnv) (plugins : List Plugin) (fuel : Nat)
    (st : BuildState) (ref : RouteRef) :
    Except BuildErr (BuildState × Operation) := do
  let op : Operation :=
    { operationId := ref.operationId, summary := ref.summary,
      description := ref.description, deprecated := ref.deprecated, tags := ref.tags }
  let op :=
    if ref.parameters ≠ [] then
      let params := sortByLE paramLE ref.parameters
      let opParams := params.map (fun p =>
        let ps := schemaType {} p.schemaType
        let ps := if ps.typ = none ∨ ps.typ = some [] then schemaType ps (gs "string") else ps
        let ps := if p.schemaType = [] then schemaType ps (gs "string") else ps
        ({ name := p.name, inLoc := p.inLoc, description := p.description,
           required := p.required, schema := ps, exampleVal := p.exampleVal } : OpParameter))
      { op with parameters := opParams }
    else op
  let op :=
    if ref.security ≠ [] then
      { op with security := some (ref.security.map (fun sec => [(sec.name, sec.scopes)])) }
    else op
  let (st, bodyRef?) ← buildRequestBody env plugins fuel st ref
  let op := match bodyRef? with
    | some b => { op with requestBody := some b }
    | none => op
  let statusCodes := sortByLE (fun a b => decide (a ≤ b)) (ref.responses.map Prod.fst)
  let (st, op) ← statusCodes.foldlM
    (fun (acc : BuildState × Operation) status => do
      match ref.responses.lookup status with
      | none => pure acc
      | some respRef => do
        let (st, oaResp) ← buildResponse env plugins fuel acc.1 status respRef
        pure (st, { acc.2 with responses := mapSet status oaResp acc.2.responses }))
    (st, op)
  let op := addDXDefaults ref op
  .ok (st, op)

/-- Translation of `addRoute` (builder.go): normalize the path, build
the operation, and install it in the path table under the route's
method slot.  The Go code inserts the fresh (empty) path item into the
table before building the operation and mutates it through the
pointer; installing the populated item at the end is observably
equivalent since a failed build discards the document. -/
def addRoute (env : TypeEnv) (plugins : List Plugin) (fuel : Nat)
    (st : BuildState) (paths : List (GoStr × PathItem)) (ref : RouteRef) :
    Except BuildErr (BuildState × List (GoStr × PathItem)) := do
  let normalizedPath := normalizePath ref.path
  let pathItem := (paths.lookup normalizedPath).getD {}
  let (st, op) ← buildOperation env plugins fuel st ref
  let methodUpper := goToUpper ref.method
  if methodUpper = MethodGet then
    .ok (st, mapSet normalizedPath { pathItem with getOp := some op } paths)
  else if methodUpper = MethodPost then
    .ok (st, mapSet normalizedPath { pathItem with postOp := some op } paths)
  else if methodUpper = MethodPut then
    .ok (st, mapSet normalizedPath { pathItem with putOp := some op } paths)
  else if methodUpper = MethodPatch then
    .ok (st, mapSet normalizedPath { pathItem with patchOp := some op } paths)
  else if methodUpper = MethodDelete then
    .ok (st, mapSet normalizedPath { pathItem with deleteOp := some op } paths)
  else
    .error (.unsupportedMethod ref.method)

/-- Translation of `sortPaths` (builder.go): rebuild the path table in
the order of `Paths.InMatchingOrder()`, modelled as the
lexicographically sorted key order (the deterministic order the spec
prescribes for serialization). -/
def sortPaths (paths : List (GoStr × PathItem)) : List (GoStr × PathItem) :=
  (sortByLE (fun a b => decide (a ≤ b)) (paths.map Prod.fst)).filterMap
    (fun k => (paths.lookup k).map (fun v => (k, v)))

/-- Model of the `Builder` configuration fields (builder.go). -/
structure Builder where
  info : Info := {}
  servers : List ServerRec := []
  securitySchemes : List (GoStr × SecScheme) := []
  globalSecurity : List SecurityReqOut := []
  tags : List TagRec := []
deriving Repr, Inhabited

/-- Translation of `NewBuilder` (builder.go). -/
def NewBuilder : Builder :=
  { info := { title := gs "API", version := gs "1.0.0" } }

/-- Translation of `Build` (builder.go): fresh build state (the Go code
re-creates `schemaCache` on every call), one `addRoute` per snapshot
entry, path sorting, then the spec-build hooks.  The returned build
state is the heap the document's schema refs point into. -/
def Build (b : Builder) (env : TypeEnv) (plugins : List Plugin) (fuel : Nat)
    (routes : List RouteRef) : Except BuildErr (BuildState × Doc) := do
  let st : BuildState := {}
  let (st, paths) ← routes.foldlM
    (fun (acc : BuildState × List (GoStr × PathItem)) route =>
      addRoute env plugins fuel acc.1 acc.2 route)
    (st, ([] : List (GoStr × PathItem)))
  let doc : Doc :=
    { openapi := gs "3.1.0",
      info := b.info,
      servers := b.servers,
      components := { schemas := st.schemas, securitySchemes := b.securitySchemes },
      paths := sortPaths paths,
      security := if b.globalSecurity.length > 0 then b.globalSecurity else [],
      tags := b.tags }
  match ExecuteOnSpecBuild plugins doc with
  | .error e => .error (.hookErr e)
  | .ok doc => .ok (st, doc)

/-!
Concrete inputs used by the claim witnesses and counterexamples.
-/

/-- Type environment with one self-referential struct:
`type User struct { Name string; Next *User }` in package `models`. -/
def exEnv : TypeEnv :=
  [((gs "models", gs "User"),
    .cons (.mk (gs "Name") [] false (gs "name") [] [] [] [] [] .string)
      (.cons (.mk (gs "Next") [] false (gs "next") [] [] [] [] [] (.ptr (.named (gs "models") (gs "User"))))
        .nil))]

/-- The `models.User` descriptor. -/
def exUser : GoType := .named (gs "models") (gs "User")

/-- A plugin whose route-registration hook always fails, as the
`ErrorPlugin` of `plugin_test.go`. -/
def errPlugin : Plugin where
  name := gs "error-plugin"
  onRouteRegister := fun _ => .error (gs "plugin error")
  onSchemaGenerate := fun _ s => .ok s
  onSpecBuild := fun d => .ok d

/-- A minimal route, as registered in `TestPluginErrorHandling`. -/
def exErrRoute : RouteRef :=
  { method := MethodGet, path := gs "/test", summary := gs "Test",
    responses := [(200, {})] }

/-- A route registered with the brace spelling of the placeholder,
whose normalized path collides with an existing table entry. -/
def exMergeRoute : RouteRef :=
  { method := MethodPost, path := gs "/users/\x7bid\x7d" }

/-- A path table holding an entry for the same normalized path. -/
def exMergePaths : List (GoStr × PathItem) :=
  [(gs "/users/\x7bid\x7d", {})]

/-- The result of adding `exMergeRoute` to `exMergePaths`. -/
def exMergeResult : Except BuildErr (BuildState × List (GoStr × PathItem)) :=
  addRoute [] [] 0 {} exMergePaths exMergeRoute

/-- Build state component of `exMergeResult`. -/
def exMergeSt : BuildState :=
  match exMergeResult with
  | .ok (st, _) => st
  | .error _ => {}

/-- Path table component of `exMergeResult`. -/
def exMergePathsOut : List (GoStr × PathItem) :=
  match exMergeResult with
  | .ok (_, p) => p
  | .error _ => []

/-- Required-field rule written from the claim's own wording, for
comparison with the code's `isFieldRequired`: with an `omitempty`
marker in the json tag the field is required exactly when a
`validate`/`binding` tag contains `required`; otherwise it is required
when such a marker is present or, absent any marker, exactly when its
kind is not pointer/slice/map/interface. -/
def requiredRuleSpec (field : GoStructField) : Bool :=
  if goContains field.tagJson (gs "omitempty") then
    goContains field.tagValidate (gs "required") || goContains field.tagBinding (gs "required")
  else
    (goContains field.tagValidate (gs "required") || goContains field.tagBinding (gs "required")) ||
      !field.fieldType.isPtrSliceMapIface

/-- Serialized names of the fields that `populateStructSchema` appends
to the `required` list: exported, non-embedded, non-skipped fields
passing `isFieldRequired`, in declaration order. -/
def requiredNames : GoFields → List GoStr
  | .nil => []
  | .cons field rest =>
    if field.pkgPath ≠ [] ∧ !field.anonymous then requiredNames rest
    else if field.anonymous then requiredNames rest
    else
      match jsonName field with
      | (_, true) => requiredNames rest
      | (jname, false) =>
        if isFieldRequired field then jname :: requiredNames rest else requiredNames rest

/-- Fields of the `models.User` example type. -/
def exUserFields : GoFields :=
  .cons (.mk (gs "Name") [] false (gs "name") [] [] [] [] [] .string)
    (.cons (.mk (gs "Next") [] false (gs "next") [] [] [] [] [] (.ptr exUser)) .nil)

/-- A concrete populate run over the `models.User` fields, starting
from a freshly allocated object node. -/
def exPopRun : Except BuildErr (BuildState × SchemaObj) :=
  populateStructSchema exEnv [] 10
    ({ nextId := 1, store := [(0, NewObjectSchema)] }) 0 NewObjectSchema exUserFields

/-- State component of `exPopRun`. -/
def exPopSt : BuildState :=
  match exPopRun with
  | .ok (st, _) => st
  | .error _ => {}

/-- Schema component of `exPopRun`. -/
def exPopSchema : SchemaObj :=
  match exPopRun with
  | .ok (_, s) => s
  | .error _ => {}

/-- Result of building the `models.User` schema from a clean build
state (used by the nullable-wrapping and component-sharing
witnesses). -/
def exUserBuildRun : Except BuildErr (BuildState × SchemaRef) :=
  schemaRefFromType exEnv [] 10 {} exUser

/-- State component of `exUserBuildRun`. -/
def exUserSt : BuildState :=
  match exUserBuildRun with
  | .ok (st, _) => st
  | .error _ => {}

/-- Schema-ref component of `exUserBuildRun`. -/
def exUserRef : SchemaRef :=
  match exUserBuildRun with
  | .ok (_, r) => r
  | .error _ => {}

/-- Contents of the `models.User` node after `exUserBuildRun`. -/
def exUserNode : SchemaObj :=
  match exUserSt.getNode 0 with
  | some s => s
  | none => {}

/-- Invariant tying the cache to the component table: every cached
named type with a non-empty component name has its shared ref stored in
the component table under that name, it is declared in the environment,
and component-table keys are pairwise distinct. -/
def GoodSt (env : TypeEnv) (st : BuildState) : Prop :=
  (∀ p n r, st.schemaCache.lookup (.named p n) = some r → (p, n) ∈ env.map Prod.fst) ∧
  (∀ p n r, st.schemaCache.lookup (.named p n) = some r →
    componentName (.named p n) ≠ [] →
    st.schemas.lookup (componentName (.named p n)) = some r) ∧
  st.schemas.Pairwise (fun a b => a.1 ≠ b.1)

/-- Stability of cached named types across a builder call: an existing
cache entry for a named type is never removed or replaced. -/
def MonoNamed (st st' : BuildState) : Prop :=
  ∀ p n r, n ≠ [] → st.schemaCache.lookup (.named p n) = some r →
    st'.schemaCache.lookup (.named p n) = some r

/-- Hypothesis that distinct declared named types keep distinct
sanitized component names (a Go program with a collision would overwrite
one component with the other). -/
def EnvInj (env : TypeEnv) : Prop :=
  ∀ k₁ k₂ : GoStr × GoStr, k₁ ∈ env.map Prod.fst → k₂ ∈ env.map Prod.fst →
    componentName (.named k₁.1 k₁.2) = componentName (.named k₂.1 k₂.2) → k₁ = k₂

/-- Result of building the `models.User` schema at the non-null entry
point from a clean build state, used by the component-sharing
witness. -/
def exUserNNRun : Except BuildErr (BuildState × SchemaRef) :=
  schemaRefNonNull exEnv [] 10 {} exUser

/-- State component of `exUserNNRun`. -/
def exUserNNSt : BuildState :=
  match exUserNNRun with
  | .ok (st, _) => st
  | .error _ => {}

/-- Schema-ref component of `exUserNNRun`. -/
def exUserNNRef : SchemaRef :=
  match exUserNNRun with
  | .ok (_, r) => r
  | .error _ => {}

/-- Two descriptors on distinct paths, for the determinism witness. -/
def exDetA : RouteRef :=
  { method := MethodGet, path := gs "/a", successStatus := 200 }

/-- Second distinct-path descriptor of the determinism witness. -/
def exDetB : RouteRef :=
  { method := MethodPost, path := gs "/b", successStatus := 201 }

/-- A plugin with the given name whose hooks are all identities. -/
def mkNamedPlugin (n : GoStr) : Plugin :=
  { name := n,
    onRouteRegister := fun r => .ok r,
    onSchemaGenerate := fun _ s => .ok s,
    onSpecBuild := fun d => .ok d }

/-- Identity plugin named `alpha`. -/
def exPlugA : Plugin := mkNamedPlugin (gs "alpha")

/-- Identity plugin named `beta`. -/
def exPlugB : Plugin := mkNamedPlugin (gs "beta")

/-- A descriptor that shares its path and method with `exDup2` but
carries a different summary. -/
def exDup1 : RouteRef :=
  { method := MethodGet, path := gs "/dup", summary := gs "first", successStatus := 200 }

/-- The conflicting twin of `exDup1`. -/
def exDup2 : RouteRef :=
  { method := MethodGet, path := gs "/dup", summary := gs "second", successStatus := 200 }

/-- Input class of the recursion claim: a field type that mentions at
most primitive types and the self type itself, directly or through
pointers, slices, arrays and string-keyed maps. -/
def selfPrimType (self : GoType) : GoType → Bool
  | .bool => true
  | .int => true
  | .int8 => true
  | .int16 => true
  | .int32 => true
  | .int64 => true
  | .uint => true
  | .uint8 => true
  | .uint16 => true
  | .uint32 => true
  | .uint64 => true
  | .float32 => true
  | .float64 => true
  | .string => true
  | .iface => true
  | .timeTime => true
  | .uuid => true
  | .decimal => true
  | .slice e => selfPrimType self e
  | .array e => selfPrimType self e
  | .ptr e => selfPrimType self e
  | .map k v => k.kindIsString && selfPrimType self v
  | t => decide (t = self)

/-- All fields of the list are in the recursion claim's input class. -/
def selfPrimFields (self : GoType) : GoFields → Bool
  | .nil => true
  | .cons (.mk _ _ _ _ _ _ _ _ _ t) rest =>
    selfPrimType self t && selfPrimFields self rest

/-- Fuel that provably suffices to populate a field list of the
recursion claim's input class. -/
def popNeed : GoFields → Nat
  | .nil => 1
  | .cons (.mk _ _ _ _ _ _ _ _ _ t) rest => 2 * t.tsize + 3 + popNeed rest

/-- Success check on a fallible result. -/
def exceptIsOk {ε α : Type} : Except ε α → Bool
  | .ok _ => true
  | .error _ => false

/-- A route whose request body is inferred from a map type, used to
show that an unsupported map key aborts the whole build. -/
def mkMapRoute (k v : GoType) : RouteRef :=
  { method := MethodGet, path := gs "/m", requestType := some (.map k v) }

/-- Observation function reading the operation slot of a path item for
an (upper-case) method string, mirroring the `switch` of `addRoute`. -/
def methodSlot (item : PathItem) (m : GoStr) : Option Operation :=
  if m = MethodGet then item.getOp
  else if m = MethodPost then item.postOp
  else if m = MethodPut then item.putOp
  else if m = MethodPatch then item.patchOp
  else if m = MethodDelete then item.deleteOp
  else none

/-!
Lemmas about path normalization.
-/

theorem normPlain_no_colon (l : GoStr) (h : ':' ∉ l) : normPlain l = l := by
  induction l with
  | nil => simp [normPlain]
  | cons c rest ih =>
    have hc : ¬(c = ':') := fun e => h (e ▸ List.mem_cons_self c rest)
    have hr : ':' ∉ rest := fun m => h (List.mem_cons_of_mem _ m)
    simp [normPlain, hc, ih hr]

/-- Processing distributes over a colon-free prefix. -/
theorem normPlain_append (pre suf : GoStr) (h : ':' ∉ pre) :
    normPlain (pre ++ suf) = pre ++ normPlain suf := by
  induction pre with
  | nil => rfl
  | cons c rest ih =>
    have hc : ¬(c = ':') := fun e => h (e ▸ List.mem_cons_self c rest)
    have hr : ':' ∉ rest := fun m => h (List.mem_cons_of_mem _ m)
    simp [normPlain, hc, ih hr]

/-- Inside a token, an identifier-character run is copied verbatim. -/
theorem normTok_ident_run (name suf : GoStr) (h : ∀ c ∈ name, isPathIdentChar c = true) :
    normTok (name ++ suf) = name ++ normTok suf := by
  induction name with
  | nil => rfl
  | cons c rest ih =>
    have hc : isPathIdentChar c = true := h c (List.mem_cons_self c rest)
    have hr : ∀ c ∈ rest, isPathIdentChar c = true := fun x hx => h x (List.mem_cons_of_mem _ hx)
    simp [normTok, hc, ih hr]

/-- At the end of a token, the closing brace is emitted and plain
scanning resumes. -/
theorem normTok_end (suf : GoStr)
    (h : suf = [] ∨ ∃ c r, suf = c :: r ∧ isPathIdentChar c = false) :
    normTok suf = '\x7d' :: normPlain suf := by
  rcases h with rfl | ⟨c, r, rfl, hc⟩
  · simp [normTok, normPlain]
  · by_cases h2 : c = ':'
    · subst h2
      simp [normTok, normPlain, hc]
    · simp [normTok, normPlain, hc, h2]

/-- Identifier characters are never the colon marker. -/
theorem ident_no_colon (name : GoStr) (h : ∀ c ∈ name, isPathIdentChar c = true) :
    ':' ∉ name := by
  intro hm
  have := h ':' hm
  simp [isPathIdentChar] at this

/-- The two placeholder spellings of the same token normalize
identically. -/
theorem normalizePath_colon_eq_brace (pre name suf : GoStr)
    (hpre : ':' ∉ pre) (hname : ∀ c ∈ name, isPathIdentChar c = true)
    (hsuf : suf = [] ∨ ∃ c r, suf = c :: r ∧ isPathIdentChar c = false) :
    normalizePath (pre ++ ':' :: name ++ suf) =
      normalizePath (pre ++ '\x7b' :: name ++ '\x7d' :: suf) := by
  unfold normalizePath
  have e1 : pre ++ ':' :: name ++ suf = pre ++ (':' :: (name ++ suf)) := by
    simp
  have e2 : pre ++ '\x7b' :: name ++ '\x7d' :: suf =
      pre ++ ('\x7b' :: (name ++ '\x7d' :: suf)) := by
    simp
  rw [e1, e2, normPlain_append pre (':' :: (name ++ suf)) hpre,
    normPlain_append pre ('\x7b' :: (name ++ '\x7d' :: suf)) hpre]
  congr 1
  have hlhs : normPlain (':' :: (name ++ suf)) = '\x7b' :: normTok (name ++ suf) := by
    simp [normPlain]
  have hrhs : normPlain ('\x7b' :: (name ++ '\x7d' :: suf)) =
      '\x7b' :: normPlain (name ++ '\x7d' :: suf) := by
    simp [normPlain]
  rw [hlhs, hrhs, normTok_ident_run name suf hname,
    normPlain_append name ('\x7d' :: suf) (ident_no_colon name hname)]
  have hbrace : normPlain ('\x7d' :: suf) = '\x7d' :: normPlain suf := by
    simp [normPlain]
  rw [hbrace, normTok_end suf hsuf]

/-!
Association-list lemmas for the Go-map model.
-/

theorem lookup_mapSet_self {α β : Type} [BEq α] [LawfulBEq α] (k : α) (v : β)
    (l : List (α × β)) : (mapSet k v l).lookup k = some v := by
  induction l with
  | nil => simp [mapSet, List.lookup]
  | cons e rest ih =>
    obtain ⟨k', v'⟩ := e
    by_cases hk : k' = k
    · subst hk
      simp [mapSet, List.lookup]
    · have hk2 : ¬(k = k') := fun e => hk e.symm
      have h1 : (k' == k) = false := by simp [hk]
      have h2 : (k == k') = false := by simp [hk2]
      simp [mapSet, List.lookup, h1, h2, ih]

theorem lookup_mapSet_ne {α β : Type} [BEq α] [LawfulBEq α] {k k' : α} (v : β)
    (l : List (α × β)) (hne : ¬(k' = k)) :
    (mapSet k v l).lookup k' = l.lookup k' := by
  have hne' : (k' == k) = false := by simp [hne]
  induction l with
  | nil => simp [mapSet, List.lookup, hne']
  | cons e rest ih =>
    obtain ⟨k₀, v₀⟩ := e
    by_cases hk : k₀ = k
    · subst hk
      simp [mapSet, List.lookup, hne', ih]
    · have h1 : (k₀ == k) = false := by simp [hk]
      simp [mapSet, List.lookup, h1, ih]

theorem mapSet_keys_of_lookup {α β : Type} [BEq α] [LawfulBEq α] (k : α) (v : β)
    (l : List (α × β)) (h : (l.lookup k).isSome) :
    (mapSet k v l).map Prod.fst = l.map Prod.fst := by
  induction l with
  | nil => simp [List.lookup] at h
  | cons e rest ih =>
    obtain ⟨k', v'⟩ := e
    by_cases hk : k' = k
    · simp [mapSet, hk]
    · have hlk : (rest.lookup k).isSome := by
        have : (k == k') = false := beq_false_of_ne (fun e => hk e.symm)
        simpa [List.lookup, this] using h
      simp only [mapSet, beq_iff_eq, hk, if_false]
      simp [ih hlk]

/-!
Merging of routes with equal normalized paths (addRoute dispatch).
-/

theorem methodSlot_same_get (item : PathItem) (op : Operation) :
    methodSlot { item with getOp := some op } MethodGet = some op := by
  simp [methodSlot]

theorem methodSlot_same_post (item : PathItem) (op : Operation) :
    methodSlot { item with postOp := some op } MethodPost = some op := by
  have h1 : ¬(MethodPost = MethodGet) := by decide
  simp [methodSlot, h1]

theorem methodSlot_same_put (item : PathItem) (op : Operation) :
    methodSlot { item with putOp := some op } MethodPut = some op := by
  have h1 : ¬(MethodPut = MethodGet) := by decide
  have h2 : ¬(MethodPut = MethodPost) := by decide
  simp [methodSlot, h1, h2]

theorem methodSlot_same_patch (item : PathItem) (op : Operation) :
    methodSlot { item with patchOp := some op } MethodPatch = some op := by
  have h1 : ¬(MethodPatch = MethodGet) := by decide
  have h2 : ¬(MethodPatch = MethodPost) := by decide
  have h3 : ¬(MethodPatch = MethodPut) := by decide
  simp [methodSlot, h1, h2, h3]

theorem methodSlot_same_delete (item : PathItem) (op : Operation) :
    methodSlot { item with deleteOp := some op } MethodDelete = some op := by
  have h1 : ¬(MethodDelete = MethodGet) := by decide
  have h2 : ¬(MethodDelete = MethodPost) := by decide
  have h3 : ¬(MethodDelete = MethodPut) := by decide
  have h4 : ¬(MethodDelete = MethodPatch) := by decide
  simp [methodSlot, h1, h2, h3, h4]

theorem methodSlot_other_get (item : PathItem) (op : Operation) (m : GoStr)
    (h : ¬(m = MethodGet)) :
    methodSlot { item with getOp := some op } m = methodSlot item m := by
  simp [methodSlot, h]

theorem methodSlot_other_post (item : PathItem) (op : Operation) (m : GoStr)
    (h : ¬(m = MethodPost)) :
    methodSlot { item with postOp := some op } m = methodSlot item m := by
  simp [methodSlot, h]

theorem methodSlot_other_put (item : PathItem) (op : Operation) (m : GoStr)
    (h : ¬(m = MethodPut)) :
    methodSlot { item with putOp := some op } m = methodSlot item m := by
  simp [methodSlot, h]

theorem methodSlot_other_patch (item : PathItem) (op : Operation) (m : GoStr)
    (h : ¬(m = MethodPatch)) :
    methodSlot { item with patchOp := some op } m = methodSlot item m := by
  simp [methodSlot, h]

theorem methodSlot_other_delete (item : PathItem) (op : Operation) (m : GoStr)
    (h : ¬(m = MethodDelete)) :
    methodSlot { item with deleteOp := some op } m = methodSlot item m := by
  simp [methodSlot, h]

theorem addRoute_merges (env : TypeEnv) (plugins : List Plugin) (fuel : Nat)
    (st : BuildState) (paths : List (GoStr × PathItem)) (r : RouteRef)
    (st' : BuildState) (paths' : List (GoStr × PathItem)) (item : PathItem)
    (hok : addRoute env plugins fuel st paths r = .ok (st', paths'))
    (hmem : paths.lookup (normalizePath r.path) = some item) :
    paths'.map Prod.fst = paths.map Prod.fst ∧
      ∃ op item', paths'.lookup (normalizePath r.path) = some item' ∧
        methodSlot item' (goToUpper r.method) = some op ∧
        ∀ m, ¬(m = goToUpper r.method) → methodSlot item' m = methodSlot item m := by
  unfold addRoute at hok
  cases hbo : buildOperation env plugins fuel st r with
  | error e =>
    rw [hbo] at hok
    simp [Bind.bind, Except.bind] at hok
  | ok p =>
    obtain ⟨st₁, op⟩ := p
    rw [hbo] at hok
    simp only [Bind.bind, Except.bind, hmem, Option.getD_some] at hok
    have hkeys : ∀ it : PathItem,
        (mapSet (normalizePath r.path) it paths).map Prod.fst = paths.map Prod.fst :=
      fun it => mapSet_keys_of_lookup _ it paths (by simp [hmem])
    split at hok
    · rename_i hm
      injection hok with hok'
      injection hok' with h1 h2
      subst h2
      rw [hm]
      exact ⟨hkeys _, op, _, lookup_mapSet_self _ _ _, methodSlot_same_get item op,
        fun m hne => methodSlot_other_get item op m hne⟩
    · split at hok
      · rename_i hm
        injection hok with hok'
        injection hok' with h1 h2
        subst h2
        rw [hm]
        exact ⟨hkeys _, op, _, lookup_mapSet_self _ _ _, methodSlot_same_post item op,
          fun m hne => methodSlot_other_post item op m hne⟩
      · split at hok
        · rename_i hm
          injection hok with hok'
          injection hok' with h1 h2
          subst h2
          rw [hm]
          exact ⟨hkeys _, op, _, lookup_mapSet_self _ _ _, methodSlot_same_put item op,
            fun m hne => methodSlot_other_put item op m hne⟩
        · split at hok
          · rename_i hm
            injection hok with hok'
            injection hok' with h1 h2
            subst h2
            rw [hm]
            exact ⟨hkeys _, op, _, lookup_mapSet_self _ _ _, methodSlot_same_patch item op,
              fun m hne => methodSlot_other_patch item op m hne⟩
          · split at hok
            · rename_i hm
              injection hok with hok'
              injection hok' with h1 h2
              subst h2
              rw [hm]
              exact ⟨hkeys _, op, _, lookup_mapSet_self _ _ _, methodSlot_same_delete item op,
                fun m hne => methodSlot_other_delete item op m hne⟩
            · exact absurd hok (by simp)

/-!
Lemmas about the insertion sort.
-/

theorem insertLE_perm {α : Type} (le : α → α → Bool) (x : α) (l : List α) :
    (insertLE le x l).Perm (x :: l) := by
  induction l with
  | nil => exact .refl _
  | cons y ys ih =>
    simp only [insertLE]
    split
    · exact .refl _
    · exact (ih.cons y).trans (List.Perm.swap x y ys)

theorem sortByLE_perm {α : Type} (le : α → α → Bool) (l : List α) :
    (sortByLE le l).Perm l := by
  induction l with
  | nil => exact .refl _
  | cons x xs ih =>
    exact (insertLE_perm le x (sortByLE le xs)).trans (ih.cons x)

theorem insertLE_sorted {α : Type} (le : α → α → Bool)
    (htrans : ∀ a b c, le a b = true → le b c = true → le a c = true)
    (htotal : ∀ a b, (le a b || le b a) = true)
    (x : α) (l : List α) (hs : l.Pairwise (le · · = true)) :
    (insertLE le x l).Pairwise (le · · = true) := by
  induction l with
  | nil => simp [insertLE]
  | cons y ys ih =>
    rw [List.pairwise_cons] at hs
    simp only [insertLE]
    split
    · rename_i hxy
      refine List.pairwise_cons.mpr ⟨?_, List.pairwise_cons.mpr hs⟩
      intro z hz
      rcases List.mem_cons.mp hz with rfl | hz'
      · exact hxy
      · exact htrans x y z hxy (hs.1 z hz')
    · rename_i hxy
      have hyx : le y x = true := by
        have h := htotal x y
        rw [Bool.or_eq_true] at h
        rcases h with h' | h'
        · exact absurd h' hxy
        · exact h'
      refine List.pairwise_cons.mpr ⟨?_, ih hs.2⟩
      intro z hz
      have hmem : z ∈ x :: ys := (insertLE_perm le x ys).mem_iff.mp hz
      rcases List.mem_cons.mp hmem with rfl | hz'
      · exact hyx
      · exact hs.1 z hz'

theorem sortByLE_sorted {α : Type} (le : α → α → Bool)
    (htrans : ∀ a b c, le a b = true → le b c = true → le a c = true)
    (htotal : ∀ a b, (le a b || le b a) = true)
    (l : List α) : (sortByLE le l).Pairwise (le · · = true) := by
  induction l with
  | nil => simp [sortByLE]
  | cons x xs ih =>
    exact insertLE_sorted le htrans htotal x (sortByLE le xs) ih

/-!
Sortedness of the registry snapshot.
-/

theorem routeLE_iff (a b : RouteRef) :
    routeLE a b = true ↔ a.path < b.path ∨ (a.path = b.path ∧ a.method ≤ b.method) := by
  by_cases h : a.path = b.path
  · simp [routeLE, h, lt_irrefl]
  · simp [routeLE, h]

theorem routeLE_trans (a b c : RouteRef) (hab : routeLE a b = true)
    (hbc : routeLE b c = true) : routeLE a c = true := by
  rw [routeLE_iff] at hab hbc ⊢
  rcases hab with h1 | ⟨e1, m1⟩
  · rcases hbc with h2 | ⟨e2, m2⟩
    · exact Or.inl (lt_trans h1 h2)
    · exact Or.inl (e2 ▸ h1)
  · rcases hbc with h2 | ⟨e2, m2⟩
    · exact Or.inl (e1 ▸ h2)
    · exact Or.inr ⟨e1.trans e2, le_trans m1 m2⟩

theorem routeLE_total (a b : RouteRef) : (routeLE a b || routeLE b a) = true := by
  by_cases h : a.path = b.path
  · have h' : b.path = a.path := h.symm
    simp only [routeLE, if_pos h, if_pos h']
    rcases le_total a.method b.method with hm | hm
    · simp [hm]
    · simp [hm]
  · have h' : ¬(b.path = a.path) := fun e => h e.symm
    simp only [routeLE, if_neg h, if_neg h']
    rcases lt_trichotomy a.path b.path with hp | hp | hp
    · simp [hp]
    · exact absurd hp h
    · simp [hp]

/-- C9: `Snapshot` returns exactly the registered descriptors (a
permutation, hence the same length), sorted by path and then by method,
both lexicographically.  Later registrations act on a new registry
value and cannot alter a snapshot already taken, which the pure
state-passing model renders by construction. -/
theorem snapshot_sorted_permutation (routes : List RouteRef) :
    (Snapshot routes).Perm routes ∧
      (Snapshot routes).Pairwise
        (fun a b => a.path < b.path ∨ (a.path = b.path ∧ a.method ≤ b.method)) ∧
      (Snapshot routes).length = routes.length := by
  have hperm : (Snapshot routes).Perm routes := sortByLE_perm routeLE routes
  have hsorted := sortByLE_sorted routeLE routeLE_trans routeLE_total routes
  exact ⟨hperm, hsorted.imp (fun h => (routeLE_iff _ _).mp h), hperm.length_eq⟩

/-!
Claim C10: wildcard segments pass through path normalization.
-/

/-- C10: `normalizePath` rewrites only `:`-prefixed tokens; a path
containing no `:` marker — in particular one with a `*`-prefixed
wildcard segment such as `/api/files/*filepath` — is returned
character-for-character unchanged. -/
theorem normalizePath_preserves_wildcard (path : GoStr) (h : ':' ∉ path) :
    normalizePath path = path :=
  normPlain_no_colon path h

/-- Witness for `normalizePath_preserves_wildcard` at the wildcard path
of `path_normalize_test.go`. -/
theorem normalizePath_preserves_wildcard_witness :
    ':' ∉ gs "/api/files/*filepath" ∧
      normalizePath (gs "/api/files/*filepath") = gs "/api/files/*filepath" :=
  ⟨by decide, normalizePath_preserves_wildcard (gs "/api/files/*filepath") (by decide)⟩

/-!
Claim C8: placeholder normalization and path-entry merging.
-/

/-- C8: the colon spelling and the brace spelling of the same
placeholder normalize to the same path, and adding a route whose
normalized path already has a table entry does not create a second
entry — the route's operation is installed in the existing entry under
its method slot, all other method slots unchanged. -/
theorem path_normalization_and_merging :
    (∀ pre name suf : GoStr, ':' ∉ pre → (∀ c ∈ name, isPathIdentChar c = true) →
      (suf = [] ∨ ∃ c r, suf = c :: r ∧ isPathIdentChar c = false) →
      normalizePath (pre ++ ':' :: name ++ suf) =
        normalizePath (pre ++ '\x7b' :: name ++ '\x7d' :: suf)) ∧
    (∀ env plugins fuel st paths r st' paths' item,
      addRoute env plugins fuel st paths r = .ok (st', paths') →
      paths.lookup (normalizePath r.path) = some item →
      paths'.map Prod.fst = paths.map Prod.fst ∧
        ∃ op item', paths'.lookup (normalizePath r.path) = some item' ∧
          methodSlot item' (goToUpper r.method) = some op ∧
          ∀ m, ¬(m = goToUpper r.method) → methodSlot item' m = methodSlot item m) :=
  ⟨normalizePath_colon_eq_brace,
   fun env plugins fuel st paths r st' paths' item hok hmem =>
     addRoute_merges env plugins fuel st paths r st' paths' item hok hmem⟩

/-- Witness for `path_normalization_and_merging`: the token `id` in
both spellings under `/users/`, and the merge of a POST route for
`/users/\x7bid\x7d` into an existing path entry. -/
theorem path_normalization_and_merging_witness :
    (normalizePath (gs "/users/" ++ ':' :: gs "id" ++ []) =
       normalizePath (gs "/users/" ++ '\x7b' :: gs "id" ++ '\x7d' :: [])) ∧
    (exMergePathsOut.map Prod.fst = exMergePaths.map Prod.fst ∧
      ∃ op item', exMergePathsOut.lookup (normalizePath exMergeRoute.path) = some item' ∧
        methodSlot item' (goToUpper exMergeRoute.method) = some op ∧
        ∀ m, ¬(m = goToUpper exMergeRoute.method) →
          methodSlot item' m = methodSlot ({} : PathItem) m) :=
  ⟨path_normalization_and_merging.1 (gs "/users/") (gs "id") [] (by decide) (by decide)
      (Or.inl rfl),
   path_normalization_and_merging.2 [] [] 0 {} exMergePaths exMergeRoute exMergeSt
      exMergePathsOut {} (by rfl) (by rfl)⟩

/-!
Claim C1: route registration and the route-registration hooks.
-/

/-- C1 (actual code behaviour): `RegisterRoute` never consults the
plugin registry.  At the failing input of `TestPluginErrorHandling` —
a registered plugin whose `OnRouteRegister` rejects every route — the
hook engine would reject the route, yet `RegisterRoute` (which has no
error path at all) stores the descriptor unconditionally. -/
theorem registerRoute_stores_despite_hook_error :
    executeOnRouteRegister [errPlugin] exErrRoute = .error (gs "plugin error") ∧
      RegisterRoute [] exErrRoute = [{ exErrRoute with successStatus := 200 }] :=
  ⟨rfl, rfl⟩

/-!
Unfolding equations of the fueled schema builder.
-/

theorem schemaRefFromType_zero (env : TypeEnv) (plugins : List Plugin)
    (st : BuildState) (t : GoType) :
    schemaRefFromType env plugins 0 st t = .error .outOfFuel := rfl

theorem schemaRefFromType_succ (env : TypeEnv) (plugins : List Plugin) (fuel : Nat)
    (st : BuildState) (t : GoType) :
    schemaRefFromType env plugins (fuel + 1) st t =
      (do
        let nullable : Bool := t matches .ptr _
        let (st, baseRef) ← schemaRefNonNull env plugins fuel st t.stripAllPtr
        if nullable then pure (wrapNullable st baseRef) else pure (st, baseRef)) := rfl

theorem schemaRefNonNull_zero (env : TypeEnv) (plugins : List Plugin)
    (st : BuildState) (t : GoType) :
    schemaRefNonNull env plugins 0 st t = .error .outOfFuel := rfl

theorem schemaRefNonNull_succ (env : TypeEnv) (plugins : List Plugin) (fuel : Nat)
    (st : BuildState) (t : GoType) :
    schemaRefNonNull env plugins (fuel + 1) st t =
      (match st.schemaCache.lookup t with
      | some cached => .ok (st, cached)
      | none =>
        match t with
        | .bool => .ok (schemaRef st NewBoolSchema)
        | .int => .ok (schemaRef st { NewIntegerSchema with format := gs "int32" })
        | .int8 => .ok (schemaRef st { NewIntegerSchema with format := gs "int32" })
        | .int16 => .ok (schemaRef st { NewIntegerSchema with format := gs "int32" })
        | .int32 => .ok (schemaRef st { NewIntegerSchema with format := gs "int32" })
        | .int64 => .ok (schemaRef st { NewIntegerSchema with format := gs "int64" })
        | .uint => .ok (schemaRef st { NewIntegerSchema with format := gs "int32" })
        | .uint8 => .ok (schemaRef st { NewIntegerSchema with format := gs "int32" })
        | .uint16 => .ok (schemaRef st { NewIntegerSchema with format := gs "int32" })
        | .uint32 => .ok (schemaRef st { NewIntegerSchema with format := gs "int32" })
        | .uint64 => .ok (schemaRef st { NewIntegerSchema with format := gs "int64" })
        | .float32 => .ok (schemaRef st { NewFloat64Schema with format := gs "float" })
        | .float64 => .ok (schemaRef st NewFloat64Schema)
        | .string => .ok (schemaRef st NewStringSchema)
        | .slice elem =>
          if elem.kindIsUint8 then
            .ok (schemaRef st { NewStringSchema with format := gs "byte" })
          else do
            let (st, itemRef) ← schemaRefFromType env plugins fuel st elem
            .ok (schemaRef st { NewArraySchema with items := some itemRef })
        | .array elem => do
          let (st, itemRef) ← schemaRefFromType env plugins fuel st elem
          .ok (schemaRef st { NewArraySchema with items := some itemRef })
        | .map key value =>
          if !key.kindIsString then .error (.unsupportedMapKey key)
          else do
            let (st, valueRef) ← schemaRefFromType env plugins fuel st value
            .ok (schemaRef st { NewObjectSchema with additionalProperties := some valueRef })
        | .iface => .ok (schemaRef st NewObjectSchema)
        | .timeTime => .ok (schemaRef st { NewStringSchema with format := gs "date-time" })
        | .uuid => .ok (schemaRef st { NewStringSchema with format := gs "uuid" })
        | .decimal =>
          .ok (schemaRef st
            { NewStringSchema with
                format := gs "decimal",
                description := gs "Decimal number represented as string for precision",
                exampleVal := some (.vstr (gs "123.45")) })
        | .named pkgPath name => buildStructSchema env plugins fuel st (.named pkgPath name)
        | .anonStruct fields => buildStructSchema env plugins fuel st (.anonStruct fields)
        | .ptr e => .error (.unsupportedType (.ptr e))
        | .unsupported d => .error (.unsupportedType (.unsupported d))) := rfl

theorem buildStructSchema_zero (env : TypeEnv) (plugins : List Plugin)
    (st : BuildState) (t : GoType) :
    buildStructSchema env plugins 0 st t = .error .outOfFuel := rfl

theorem buildStructSchema_succ (env : TypeEnv) (plugins : List Plugin) (fuel : Nat)
    (st : BuildState) (t : GoType) :
    buildStructSchema env plugins (fuel + 1) st t =
      (match structFields env t with
      | none =>
        match t with
        | .named pkgPath name => .error (.unknownNamed pkgPath name)
        | other => .error (.unsupportedType other)
      | some fields =>
        let name := componentName t
        if name ≠ [] then
          match st.schemaCache.lookup t with
          | some r => .ok (st, r)
          | none =>
            let schema : SchemaObj := { NewObjectSchema with properties := some [], required := [], allOf := [] }
            let (sid, st) := st.alloc schema
            let sref : SchemaRef := { ref := [], value := some sid }
            let st := { st with schemas := mapSet name sref st.schemas }
            let st := { st with schemaCache := (t, sref) :: st.schemaCache }
            do
            let (st, popSchema) ← populateStructSchema env plugins fuel st sid schema fields
            match ExecuteOnSchemaGenerate plugins name popSchema with
            | .error e => .error (.hookErr e)
            | .ok hooked =>
              let st := st.setNode sid hooked
              .ok (st, sref)
        else do
          let schema : SchemaObj := { NewObjectSchema with properties := some [], required := [] }
          let (sid, st) := st.alloc schema
          let (st, _popSchema) ← populateStructSchema env plugins fuel st sid schema fields
          let ref : SchemaRef := { ref := [], value := some sid }
          let st := { st with schemaCache := (t, ref) :: st.schemaCache }
          .ok (st, ref)) := rfl

theorem populateStructSchema_nil (env : TypeEnv) (plugins : List Plugin) (fuel : Nat)
    (st : BuildState) (sid : NodeId) (schema : SchemaObj) :
    populateStructSchema env plugins fuel st sid schema .nil = .ok (st, schema) := by
  cases fuel <;> rfl

theorem populateStructSchema_cons_zero (env : TypeEnv) (plugins : List Plugin)
    (st : BuildState) (sid : NodeId) (schema : SchemaObj) (field : GoStructField)
    (rest : GoFields) :
    populateStructSchema env plugins 0 st sid schema (.cons field rest) = .error .outOfFuel :=
  rfl

theorem populateStructSchema_cons_succ (env : TypeEnv) (plugins : List Plugin) (fuel : Nat)
    (st : BuildState) (sid : NodeId) (schema : SchemaObj) (field : GoStructField)
    (rest : GoFields) :
    populateStructSchema env plugins (fuel + 1) st sid schema (.cons field rest) =
      (if field.pkgPath ≠ [] ∧ !field.anonymous then
        populateStructSchema env plugins fuel st sid schema rest
      else if field.anonymous then do
        let (st, r) ← schemaRefFromType env plugins fuel st field.fieldType
        let schema := { schema with allOf := schema.allOf ++ [r] }
        let st := st.setNode sid schema
        populateStructSchema env plugins fuel st sid schema rest
      else
        match jsonName field with
        | (_, true) => populateStructSchema env plugins fuel st sid schema rest
        | (jname, false) => do
          let schema := if schema.properties = none then { schema with properties := some [] } else schema
          let isFile : Bool := field.tagFormat = gs "binary" ∨ field.tagFormat = gs "file"
          let (st, childRef) ←
            if isFile then
              pure (schemaRef st { NewStringSchema with format := gs "binary" })
            else
              schemaRefFromType env plugins fuel st field.fieldType
          let schema :=
            { schema with properties := some (mapSet jname childRef (schema.properties.getD [])) }
          let st :=
            if field.tagDescription ≠ [] then
              match childRef.value with
              | some cid =>
                match st.getNode cid with
                | some cs => st.setNode cid { cs with description := field.tagDescription }
                | none => st
              | none => st
            else st
          let st :=
            if field.tagExample ≠ [] ∧ !isFile then
              match childRef.value with
              | some cid =>
                match st.getNode cid with
                | some cs =>
                  st.setNode cid { cs with exampleVal := some (parseExampleValue field.tagExample field.fieldType) }
                | none => st
              | none => st
            else st
          let schema :=
            if isFieldRequired field then { schema with required := schema.required ++ [jname] }
            else schema
          let st := st.setNode sid schema
          populateStructSchema env plugins fuel st sid schema rest) :=
  rfl

/-!
Claim C7: the required-field rule.
-/

theorem except_bind_ok {ε α β : Type} (m : Except ε α) (f : α → Except ε β) (out : β) :
    (m >>= f) = .ok out ↔ ∃ a, m = .ok a ∧ f a = .ok out := by
  cases m with
  | ok a => simp [Bind.bind, Except.bind]
  | error e => simp [Bind.bind, Except.bind]

theorem populate_required (env : TypeEnv) (plugins : List Plugin) :
    ∀ (fuel : Nat) (fields : GoFields) (st : BuildState) (sid : NodeId)
      (schema : SchemaObj) (st' : BuildState) (schema' : SchemaObj),
      populateStructSchema env plugins fuel st sid schema fields = .ok (st', schema') →
      schema'.required = schema.required ++ requiredNames fields := by
  intro fuel
  induction fuel with
  | zero =>
    intro fields st sid schema st' schema' hok
    cases fields with
    | nil =>
      rw [populateStructSchema_nil] at hok
      cases hok
      simp [requiredNames]
    | cons field rest => rw [populateStructSchema_cons_zero] at hok; cases hok
  | succ fuel ih =>
    intro fields st sid schema st' schema' hok
    cases fields with
    | nil =>
      rw [populateStructSchema_nil] at hok
      cases hok
      simp [requiredNames]
    | cons field rest =>
      rw [populateStructSchema_cons_succ] at hok
      by_cases h1 : field.pkgPath ≠ [] ∧ !field.anonymous
      · rw [if_pos h1] at hok
        rw [ih rest st sid schema st' schema' hok]
        simp [requiredNames, h1]
      · rw [if_neg h1] at hok
        by_cases h2 : field.anonymous = true
        · rw [if_pos h2] at hok
          obtain ⟨⟨st₁, r⟩, hprod, hok2⟩ := (except_bind_ok _ _ _).mp hok
          have hres := ih _ _ _ _ _ _ hok2
          rw [hres]
          simp [requiredNames, h1, h2]
        · rw [if_neg h2] at hok
          have hb : field.anonymous = false := by
            cases hanon : field.anonymous
            · rfl
            · exact absurd hanon h2
          have hpk : field.pkgPath = [] := by
            by_contra hne
            exact h1 ⟨hne, by simp [hb]⟩
          cases hjn : jsonName field with
          | mk jname skip =>
            rw [hjn] at hok
            cases skip with
            | true =>
              dsimp only [] at hok
              rw [ih _ _ _ _ _ _ hok]
              simp [requiredNames, h1, h2, hjn]
            | false =>
              dsimp only [] at hok
              by_cases hf : (field.tagFormat = gs "binary" ∨ field.tagFormat = gs "file")
              · have hfb : decide (field.tagFormat = gs "binary" ∨ field.tagFormat = gs "file") = true := by
                  simp [hf]
                simp only [hfb, if_true, Bind.bind, Except.bind, pure, Except.pure] at hok
                have hres := ih _ _ _ _ _ _ hok
                rw [hres]
                by_cases hreq : isFieldRequired field = true <;>
                  by_cases hp : schema.properties = none <;>
                    simp [requiredNames, h1, h2, hjn, hreq, hp, hpk, List.append_assoc]
              · have hfb : decide (field.tagFormat = gs "binary" ∨ field.tagFormat = gs "file") = false := by
                  simp [hf]
                simp only [hfb, Bool.false_eq_true, if_false] at hok
                obtain ⟨⟨st₂, childRef⟩, hprod, hok2⟩ := (except_bind_ok _ _ _).mp hok
                dsimp only [] at hok2
                have hres := ih _ _ _ _ _ _ hok2
                rw [hres]
                by_cases hreq : isFieldRequired field = true <;>
                  by_cases hp : schema.properties = none <;>
                    simp [requiredNames, h1, h2, hjn, hreq, hp, hpk, List.append_assoc]

/-- C7: the code's required-field decision agrees everywhere with the
claim's rule, and the `required` list that field population produces is
exactly the serialized names of the exported, non-embedded,
non-skipped fields passing that rule, in declaration order. -/
theorem required_field_inference :
    (∀ field, isFieldRequired field = requiredRuleSpec field) ∧
    (∀ (env : TypeEnv) (plugins : List Plugin) (fields : GoFields) (fuel : Nat)
      (st : BuildState) (sid : NodeId) (schema : SchemaObj) (st' : BuildState)
      (schema' : SchemaObj),
      populateStructSchema env plugins fuel st sid schema fields = .ok (st', schema') →
      schema'.required = schema.required ++ requiredNames fields) := by
  constructor
  · intro field
    by_cases h1 : goContains field.tagJson (gs "omitempty") = true <;>
      by_cases h2 : hasRequiredTag field = true <;>
        simp_all [isFieldRequired, requiredRuleSpec, hasRequiredTag]
  · intro env plugins fields fuel st sid schema st' schema' hok
    exact populate_required env plugins fuel fields st sid schema st' schema' hok

/-!
Claim C6: rejection of non-string map keys.
-/

theorem nonNull_map_badkey (env : TypeEnv) (plugins : List Plugin) (fuel : Nat)
    (st : BuildState) (k v : GoType) (hk : k.kindIsString = false)
    (hc : st.schemaCache.lookup (.map k v) = none) :
    schemaRefNonNull env plugins (fuel + 1) st (.map k v) =
      .error (.unsupportedMapKey k) := by
  rw [schemaRefNonNull_succ, hc]
  simp [hk]

theorem fromType_map_badkey (env : TypeEnv) (plugins : List Plugin) (fuel : Nat)
    (st : BuildState) (k v : GoType) (hk : k.kindIsString = false)
    (hc : st.schemaCache.lookup (.map k v) = none) :
    schemaRefFromType env plugins (fuel + 2) st (.map k v) =
      .error (.unsupportedMapKey k) := by
  rw [schemaRefFromType_succ]
  have hstrip : (GoType.map k v).stripAllPtr = .map k v := rfl
  rw [hstrip, nonNull_map_badkey env plugins fuel st k v hk hc]
  simp [Bind.bind, Except.bind]

theorem build_map_badkey (b : Builder) (env : TypeEnv) (plugins : List Plugin)
    (fuel : Nat) (k v : GoType) (hk : k.kindIsString = false) :
    Build b env plugins (fuel + 2) [mkMapRoute k v] = .error (.unsupportedMapKey k) := by
  have hbody : buildRequestBody env plugins (fuel + 2) {} (mkMapRoute k v) =
      .error (.unsupportedMapKey k) := by
    have h := fromType_map_badkey env plugins fuel {} k v hk rfl
    simp [buildRequestBody, schemaFromTypes, mkMapRoute, h, Bind.bind, Except.bind]
  have hop : buildOperation env plugins (fuel + 2) {} (mkMapRoute k v) =
      .error (.unsupportedMapKey k) := by
    simp [buildOperation, hbody, Bind.bind, Except.bind]
  have hadd : addRoute env plugins (fuel + 2) {} [] (mkMapRoute k v) =
      .error (.unsupportedMapKey k) := by
    simp [addRoute, hop, Bind.bind, Except.bind]
  simp [Build, List.foldlM, hadd, Bind.bind, Except.bind]

theorem nonNull_map_goodkey (env : TypeEnv) (plugins : List Plugin) (fuel : Nat)
    (st st' : BuildState) (k v : GoType) (vref : SchemaRef)
    (hk : k.kindIsString = true)
    (hc : st.schemaCache.lookup (.map k v) = none)
    (hval : schemaRefFromType env plugins fuel st v = .ok (st', vref)) :
    schemaRefNonNull env plugins (fuel + 1) st (.map k v) =
      .ok (schemaRef st' { NewObjectSchema with additionalProperties := some vref }) := by
  rw [schemaRefNonNull_succ, hc]
  simp [hk, hval, Bind.bind, Except.bind]

/-- C6: a map with a non-string key kind makes the schema builder
return the `unsupported map key` error naming the key type — and such
an error aborts the entire document build — while a string-keyed map
(with a buildable value type) produces an object schema whose
additional-properties schema is the value type's schema. -/
theorem map_key_rejection :
    (∀ (env : TypeEnv) (plugins : List Plugin) (fuel : Nat) (st : BuildState)
      (k v : GoType), k.kindIsString = false →
      st.schemaCache.lookup (.map k v) = none →
      schemaRefNonNull env plugins (fuel + 1) st (.map k v) =
        .error (.unsupportedMapKey k)) ∧
    (∀ (b : Builder) (env : TypeEnv) (plugins : List Plugin) (fuel : Nat)
      (k v : GoType), k.kindIsString = false →
      Build b env plugins (fuel + 2) [mkMapRoute k v] = .error (.unsupportedMapKey k)) ∧
    (∀ (env : TypeEnv) (plugins : List Plugin) (fuel : Nat) (st st' : BuildState)
      (k v : GoType) (vref : SchemaRef), k.kindIsString = true →
      st.schemaCache.lookup (.map k v) = none →
      schemaRefFromType env plugins fuel st v = .ok (st', vref) →
      schemaRefNonNull env plugins (fuel + 1) st (.map k v) =
        .ok (schemaRef st' { NewObjectSchema with additionalProperties := some vref })) :=
  ⟨nonNull_map_badkey, build_map_badkey,
   fun env plugins fuel st st' k v vref hk hc hval =>
     nonNull_map_goodkey env plugins fuel st st' k v vref hk hc hval⟩

/-- Witness for `map_key_rejection`: an int-keyed map of strings is
rejected and aborts a build, while a string-keyed map of ints builds
an object schema with integer additional properties. -/
theorem map_key_rejection_witness :
    schemaRefNonNull [] [] 5 {} (.map .int .string) = .error (.unsupportedMapKey .int) ∧
      Build NewBuilder [] [] 6 [mkMapRoute .int .string] =
        .error (.unsupportedMapKey .int) ∧
      schemaRefNonNull [] [] 5 {} (.map .string .int) =
        .ok (schemaRef
          (match schemaRefFromType [] [] 4 ({} : BuildState) .int with
            | .ok (st, _) => st
            | .error _ => {})
          { NewObjectSchema with
              additionalProperties :=
                some (match schemaRefFromType [] [] 4 ({} : BuildState) .int with
                  | .ok (_, r) => r
                  | .error _ => {}) }) :=
  ⟨map_key_rejection.1 [] [] 4 {} .int .string (by decide) (by decide),
   map_key_rejection.2.1 NewBuilder [] [] 4 .int .string (by decide),
   map_key_rejection.2.2 [] [] 4 {}
     (match schemaRefFromType [] [] 4 ({} : BuildState) .int with
       | .ok (st, _) => st
       | .error _ => {})
     .string .int
     (match schemaRefFromType [] [] 4 ({} : BuildState) .int with
       | .ok (_, r) => r
       | .error _ => {})
     (by decide) (by decide) (by decide)⟩

/-!
Association-list helpers for the sharing and invariant proofs.
-/

theorem lookup_cons_self {α β : Type} [BEq α] [LawfulBEq α] (k : α) (v : β)
    (l : List (α × β)) : ((k, v) :: l).lookup k = some v := by
  simp [List.lookup]

theorem lookup_cons_ne {α β : Type} [BEq α] [LawfulBEq α] {k k' : α} (hne : ¬(k = k'))
    (v : β) (l : List (α × β)) : ((k', v) :: l).lookup k = l.lookup k := by
  have h : (k == k') = false := by simp [hne]
  simp [List.lookup, h]

theorem lookup_some_mem_keys {α β : Type} [BEq α] [LawfulBEq α] {k : α} {v : β}
    {l : List (α × β)} (h : l.lookup k = some v) : k ∈ l.map Prod.fst := by
  induction l with
  | nil => simp [List.lookup] at h
  | cons e rest ih =>
    obtain ⟨k', v'⟩ := e
    by_cases hk : k = k'
    · simp [hk]
    · rw [lookup_cons_ne hk] at h
      simp [ih h]

theorem mem_mapSet {α β : Type} [BEq α] [LawfulBEq α] {b : α × β} {k : α} {v : β}
    {l : List (α × β)} (h : b ∈ mapSet k v l) : b ∈ l ∨ b = (k, v) := by
  induction l with
  | nil => simp [mapSet] at h; simp [h]
  | cons e rest ih =>
    obtain ⟨k', v'⟩ := e
    by_cases hk : k' = k
    · subst hk
      simp only [mapSet, beq_self_eq_true, if_true] at h
      rcases List.mem_cons.mp h with rfl | hmem
      · exact Or.inr rfl
      · exact Or.inl (List.mem_cons_of_mem _ hmem)
    · have hb : (k' == k) = false := by simp [hk]
      simp only [mapSet, hb, Bool.false_eq_true, if_false] at h
      rcases List.mem_cons.mp h with rfl | hmem
      · exact Or.inl (List.mem_cons_self _ _)
      · rcases ih hmem with h' | h'
        · exact Or.inl (List.mem_cons_of_mem _ h')
        · exact Or.inr h'

theorem pairwise_ne_mapSet {α β : Type} [BEq α] [LawfulBEq α] (k : α) (v : β)
    (l : List (α × β)) (h : l.Pairwise (fun a b => a.1 ≠ b.1)) :
    (mapSet k v l).Pairwise (fun a b => a.1 ≠ b.1) := by
  induction l with
  | nil => simp [mapSet]
  | cons e rest ih =>
    obtain ⟨k', v'⟩ := e
    rw [List.pairwise_cons] at h
    by_cases hk : k' = k
    · subst hk
      simp only [mapSet, beq_self_eq_true, if_true]
      exact List.pairwise_cons.mpr ⟨fun b hb => h.1 b hb, h.2⟩
    · have hb : (k' == k) = false := by simp [hk]
      simp only [mapSet, hb, Bool.false_eq_true, if_false]
      refine List.pairwise_cons.mpr ⟨?_, ih h.2⟩
      intro b hb'
      rcases mem_mapSet hb' with hmem | rfl
      · exact h.1 b hmem
      · exact hk

theorem count_key_one {α β : Type} [BEq α] [LawfulBEq α] [DecidableEq α]
    (l : List (α × β)) (k : α) (v : β)
    (hnd : l.Pairwise (fun a b => a.1 ≠ b.1)) (h : l.lookup k = some v) :
    (l.filter (fun e => e.1 = k)).length = 1 := by
  induction l with
  | nil => simp [List.lookup] at h
  | cons e rest ih =>
    obtain ⟨k', v'⟩ := e
    rw [List.pairwise_cons] at hnd
    by_cases hk : k' = k
    · subst hk
      have hrest : rest.filter (fun e => e.1 = k') = [] := by
        apply List.filter_eq_nil_iff.mpr
        intro b hb
        simp only [decide_eq_true_eq]
        exact fun e => hnd.1 b hb e.symm
      simp [List.filter, hrest]
    · have hkk : ¬(k = k') := fun e => hk e.symm
      rw [lookup_cons_ne hkk] at h
      have := ih hnd.2 h
      simp only [List.filter]
      have : (decide (k' = k)) = false := by simp [hk]
      simp [this, ih hnd.2 h]

theorem monoNamed_refl (st : BuildState) : MonoNamed st st :=
  fun _ _ _ _ h => h

theorem monoNamed_trans {st₁ st₂ st₃ : BuildState} (h1 : MonoNamed st₁ st₂)
    (h2 : MonoNamed st₂ st₃) : MonoNamed st₁ st₃ :=
  fun p n r hn h => h2 p n r hn (h1 p n r hn h)

theorem goodSt_congr {env : TypeEnv} {st st' : BuildState}
    (h1 : st'.schemaCache = st.schemaCache) (h2 : st'.schemas = st.schemas)
    (hg : GoodSt env st) : GoodSt env st' := by
  obtain ⟨a, b, c⟩ := hg
  refine ⟨?_, ?_, ?_⟩
  · intro p n r h
    exact a p n r (h1 ▸ h)
  · intro p n r h hne
    rw [h2]
    exact b p n r (h1 ▸ h) hne
  · rw [h2]
    exact c

theorem monoNamed_congr {st₁ st₂ st₃ : BuildState} (h : st₃.schemaCache = st₂.schemaCache)
    (hm : MonoNamed st₁ st₂) : MonoNamed st₁ st₃ :=
  fun p n r hn hh => h ▸ hm p n r hn hh

theorem wrapNullable_cache (st : BuildState) (ref : SchemaRef) :
    (wrapNullable st ref).1.schemaCache = st.schemaCache ∧
      (wrapNullable st ref).1.schemas = st.schemas := by
  unfold wrapNullable
  split
  · exact ⟨rfl, rfl⟩
  · split
    · exact ⟨rfl, rfl⟩
    · split
      · exact ⟨rfl, rfl⟩
      · exact ⟨rfl, rfl⟩

/-!
Claim C5: nullable wrapping does not mutate the shared base schema.
-/

/-- C5: with the base type `t` already built and cached (`ref`, whose
value pointer is the node `id` holding `s`), building `*t` succeeds by
allocating a fresh clone with the nullable flag set; the cached entry
for `t` and the shared node `id` are unchanged, and in particular the
nullable flag is never written into the cached base schema. -/
theorem nullable_wrapping_no_leak (env : TypeEnv) (plugins : List Plugin) (fuel : Nat)
    (st : BuildState) (t : GoType) (ref : SchemaRef) (id : NodeId) (s : SchemaObj)
    (hnp : t.stripAllPtr = t)
    (hcache : st.schemaCache.lookup t = some ref)
    (href : ref.value = some id)
    (hid : id < st.nextId)
    (hnode : st.getNode id = some s) :
    ∃ st', schemaRefFromType env plugins (fuel + 2) st (.ptr t) =
        .ok (st', { ref := [], value := some st.nextId }) ∧
      st'.schemaCache.lookup t = some ref ∧
      st'.getNode id = some s ∧
      st'.getNode st.nextId = some { s with nullable := true } := by
  have hstrip : (GoType.ptr t).stripAllPtr = t := by
    simp [GoType.stripAllPtr, hnp]
  have hnn : schemaRefNonNull env plugins (fuel + 1) st t = .ok (st, ref) := by
    rw [schemaRefNonNull_succ, hcache]
  have hne : (id == st.nextId) = false := by
    simp [Nat.ne_of_lt hid]
  have hwrap : wrapNullable st ref = schemaRef st { s with nullable := true } := by
    simp [wrapNullable, href, hnode]
  refine ⟨(schemaRef st { s with nullable := true }).1, ?_, ?_, ?_, ?_⟩
  · rw [schemaRefFromType_succ, hstrip]
    simp only [hnn, Bind.bind, Except.bind]
    simp [hwrap, schemaRef, BuildState.alloc, pure, Except.pure]
  · simp [schemaRef, BuildState.alloc, hcache]
  · simp only [schemaRef, BuildState.alloc, BuildState.getNode, List.lookup, hne]
    exact hnode
  · simp [schemaRef, BuildState.alloc, BuildState.getNode, List.lookup]

/-- Witness for `nullable_wrapping_no_leak`: `models.User` is built and
cached, then `*models.User` is built; the cached `User` node keeps its
contents with the nullable flag unset. -/
theorem nullable_wrapping_no_leak_witness :
    exUser.stripAllPtr = exUser ∧
      exUserSt.schemaCache.lookup exUser = some exUserRef ∧
      exUserRef.value = some 0 ∧
      0 < exUserSt.nextId ∧
      exUserSt.getNode 0 = some exUserNode ∧
      exUserNode.nullable = false ∧
      ∃ st', schemaRefFromType exEnv [] 12 exUserSt (.ptr exUser) =
          .ok (st', { ref := [], value := some exUserSt.nextId }) ∧
        st'.schemaCache.lookup exUser = some exUserRef ∧
        st'.getNode 0 = some exUserNode ∧
        st'.getNode exUserSt.nextId = some { exUserNode with nullable := true } :=
  ⟨by decide, by decide, by decide, by decide, by decide, by decide,
   nullable_wrapping_no_leak exEnv [] 10 exUserSt exUser exUserRef 0 exUserNode
     (by decide) (by decide) (by decide) (by decide) (by decide)⟩

/-- Witness for `required_field_inference`: the `models.User` fields,
whose `name` field (plain string, no markers) is required and whose
`next` field (pointer, no markers) is not. -/
theorem required_field_inference_witness :
    isFieldRequired (.mk (gs "Next") [] false (gs "next") [] [] [] [] [] (.ptr exUser)) =
        requiredRuleSpec (.mk (gs "Next") [] false (gs "next") [] [] [] [] [] (.ptr exUser)) ∧
      exPopRun = .ok (exPopSt, exPopSchema) ∧
      exPopSchema.required = NewObjectSchema.required ++ requiredNames exUserFields ∧
      requiredNames exUserFields = [gs "name"] :=
  ⟨required_field_inference.1 _,
   by decide,
   required_field_inference.2 exEnv [] exUserFields 10
     ({ nextId := 1, store := [(0, NewObjectSchema)] }) 0 NewObjectSchema exPopSt exPopSchema
     (by decide),
   by decide⟩

/-!
Claim C4: one shared component per named type.  `builder_good` shows by
induction on the fuel that every successful builder call preserves the
cache–component invariant `GoodSt`, never displaces an existing cache
entry for a named type (`MonoNamed`), and leaves the ref returned for a
named type in the cache.
-/

theorem componentName_ne_nil (p n : GoStr) (hn : n ≠ []) :
    componentName (.named p n) ≠ [] := by
  simp only [componentName]
  rw [if_neg hn]
  by_cases hp : p = []
  · rw [if_pos hp]
    cases n with
    | nil => exact absurd rfl hn
    | cons c cs => simp [sanitizeComponentName]
  · rw [if_neg hp]
    simp [sanitizeComponentName]

theorem ok_pair_eq {ε α β : Type} {A : α × β} {a : α} {b : β}
    (h : (Except.ok A : Except ε (α × β)) = .ok (a, b)) : a = A.1 ∧ b = A.2 := by
  injection h with h'
  exact ⟨congrArg Prod.fst h'.symm, congrArg Prod.snd h'.symm⟩

theorem monoNamed_of_cache_eq {st st' : BuildState}
    (h : st'.schemaCache = st.schemaCache) : MonoNamed st st' :=
  fun _ _ _ _ hh => h ▸ hh

/-- Registering a named type — consing its cache entry and storing its
component ref — preserves the invariant and keeps older entries. -/
theorem good_register (env : TypeEnv) (hinj : EnvInj env) (st : BuildState)
    (p₀ n₀ : GoStr) (sref : SchemaRef) (fds : GoFields)
    (henv : structFields env (.named p₀ n₀) = some fds)
    (hcl : st.schemaCache.lookup (.named p₀ n₀) = none)
    (hg : GoodSt env st)
    (st₂ : BuildState)
    (hc : st₂.schemaCache = (.named p₀ n₀, sref) :: st.schemaCache)
    (hs : st₂.schemas = mapSet (componentName (.named p₀ n₀)) sref st.schemas) :
    GoodSt env st₂ ∧ MonoNamed st st₂ := by
  have hmem : (p₀, n₀) ∈ env.map Prod.fst := lookup_some_mem_keys henv
  obtain ⟨ge, gc, gp⟩ := hg
  refine ⟨⟨?_, ?_, ?_⟩, ?_⟩
  · intro p n r hr
    rw [hc] at hr
    by_cases he : (GoType.named p n) = GoType.named p₀ n₀
    · injection he with he1 he2
      subst he1
      subst he2
      exact hmem
    · rw [lookup_cons_ne he] at hr
      exact ge p n r hr
  · intro p n r hr hne
    rw [hc] at hr
    rw [hs]
    by_cases he : (GoType.named p n) = GoType.named p₀ n₀
    · rw [he] at hr
      rw [lookup_cons_self] at hr
      cases hr
      rw [he]
      exact lookup_mapSet_self _ _ _
    · rw [lookup_cons_ne he] at hr
      have hdiff : ¬(componentName (.named p n) = componentName (.named p₀ n₀)) := by
        intro hcc
        have hpn := hinj (p, n) (p₀, n₀) (ge p n r hr) hmem hcc
        rw [Prod.mk.injEq] at hpn
        exact he (by rw [hpn.1, hpn.2])
      rw [lookup_mapSet_ne sref st.schemas hdiff]
      exact gc p n r hr hne
  · rw [hs]
    exact pairwise_ne_mapSet _ _ _ gp
  · intro p n r hn' hr
    rw [hc]
    by_cases he : (GoType.named p n) = GoType.named p₀ n₀
    · rw [he] at hr
      rw [hcl] at hr
      exact Option.noConfusion hr
    · rw [lookup_cons_ne he]
      exact hr

/-- Consing a cache entry for a type with an empty component name —
an anonymous struct, or a named type declared with an empty name —
preserves the invariant and the cached refs of properly named types. -/
theorem good_cons_unnamed (env : TypeEnv) (stA stB : BuildState) (t : GoType)
    (ref : SchemaRef)
    (hcn : componentName t = [])
    (hmem : ∀ p n, t = .named p n → (p, n) ∈ env.map Prod.fst)
    (hc : stB.schemaCache = (t, ref) :: stA.schemaCache)
    (hs : stB.schemas = stA.schemas)
    (hg : GoodSt env stA) :
    GoodSt env stB ∧ MonoNamed stA stB := by
  obtain ⟨ge, gc, gp⟩ := hg
  refine ⟨⟨?_, ?_, ?_⟩, ?_⟩
  · intro p n r hr
    rw [hc] at hr
    by_cases he : (GoType.named p n) = t
    · exact hmem p n he.symm
    · rw [lookup_cons_ne he] at hr
      exact ge p n r hr
  · intro p n r hr hne
    rw [hc] at hr
    rw [hs]
    by_cases he : (GoType.named p n) = t
    · rw [← he] at hcn
      exact absurd hcn hne
    · rw [lookup_cons_ne he] at hr
      exact gc p n r hr hne
  · rw [hs]
    exact gp
  · intro p n r hn' hr
    rw [hc]
    by_cases he : (GoType.named p n) = t
    · rw [← he] at hcn
      exact absurd hcn (componentName_ne_nil p n hn')
    · rw [lookup_cons_ne he]
      exact hr

/-- Both nullable-wrapping outcomes of `schemaRefFromType` leave the
cache and component table untouched. -/
theorem ite_wrap_ok {c : Prop} [Decidable c] {st₁ : BuildState} {baseRef : SchemaRef}
    {st' : BuildState} {r : SchemaRef}
    (h : (if c then pure (wrapNullable st₁ baseRef) else pure (st₁, baseRef) :
        Except BuildErr (BuildState × SchemaRef)) = .ok (st', r)) :
    st'.schemaCache = st₁.schemaCache ∧ st'.schemas = st₁.schemas := by
  split at h
  · obtain ⟨e1, e2⟩ := ok_pair_eq h
    subst e1
    obtain ⟨h1, h2⟩ := wrapNullable_cache st₁ baseRef
    exact ⟨h1, h2⟩
  · obtain ⟨e1, e2⟩ := ok_pair_eq h
    subst e1
    exact ⟨rfl, rfl⟩

set_option maxHeartbeats 3200000 in
/-- Every successful call of the four builder functions preserves the
cache–component invariant, keeps every previously cached named type at
its old ref, and — for the non-null and struct entry points applied to
a named type — leaves the returned ref in the cache. -/
theorem builder_good (env : TypeEnv) (plugins : List Plugin) (hinj : EnvInj env) :
    ∀ fuel : Nat,
      (∀ st t st' r, schemaRefFromType env plugins fuel st t = .ok (st', r) →
        GoodSt env st → GoodSt env st' ∧ MonoNamed st st') ∧
      (∀ st t st' r, schemaRefNonNull env plugins fuel st t = .ok (st', r) →
        GoodSt env st → (GoodSt env st' ∧ MonoNamed st st') ∧
          (∀ p n, t = .named p n → n ≠ [] → st'.schemaCache.lookup t = some r)) ∧
      (∀ st t st' r, buildStructSchema env plugins fuel st t = .ok (st', r) →
        GoodSt env st → (GoodSt env st' ∧ MonoNamed st st') ∧
          (∀ p n, t = .named p n → n ≠ [] → st'.schemaCache.lookup t = some r)) ∧
      (∀ st sid sc fds st' sc',
        populateStructSchema env plugins fuel st sid sc fds = .ok (st', sc') →
        GoodSt env st → GoodSt env st' ∧ MonoNamed st st') := by
  intro fuel
  induction fuel with
  | zero =>
    refine ⟨?_, ?_, ?_, ?_⟩
    · intro st t st' r h hg
      rw [schemaRefFromType_zero] at h
      exact Except.noConfusion h
    · intro st t st' r h hg
      rw [schemaRefNonNull_zero] at h
      exact Except.noConfusion h
    · intro st t st' r h hg
      rw [buildStructSchema_zero] at h
      exact Except.noConfusion h
    · intro st sid sc fds st' sc' h hg
      cases fds with
      | nil =>
        rw [populateStructSchema_nil] at h
        obtain ⟨e1, e2⟩ := ok_pair_eq h
        subst e1
        exact ⟨hg, monoNamed_refl _⟩
      | cons field rest =>
        rw [populateStructSchema_cons_zero] at h
        exact Except.noConfusion h
  | succ fuel ih =>
    obtain ⟨ihF, ihN, ihS, ihP⟩ := ih
    refine ⟨?_, ?_, ?_, ?_⟩
    · -- schemaRefFromType
      intro st t st' r h hg
      rw [schemaRefFromType_succ] at h
      obtain ⟨⟨st₁, baseRef⟩, hnn, hcont⟩ := (except_bind_ok _ _ _).mp h
      obtain ⟨⟨hg₁, hm₁⟩, _⟩ := ihN _ _ _ _ hnn hg
      obtain ⟨h1, h2⟩ := ite_wrap_ok hcont
      exact ⟨goodSt_congr h1 h2 hg₁, monoNamed_congr h1 hm₁⟩
    · -- schemaRefNonNull
      intro st t st' r h hg
      rw [schemaRefNonNull_succ] at h
      cases hcl : st.schemaCache.lookup t with
      | some cached =>
        rw [hcl] at h
        obtain ⟨e1, e2⟩ := ok_pair_eq h
        subst e1
        subst e2
        exact ⟨⟨goodSt_congr rfl rfl hg, monoNamed_of_cache_eq rfl⟩,
          fun p n he hne => hcl⟩
      | none =>
        rw [hcl] at h
        dsimp only [] at h
        cases t with
        | bool =>
          obtain ⟨e1, e2⟩ := ok_pair_eq h
          subst e1
          subst e2
          exact ⟨⟨goodSt_congr rfl rfl hg, monoNamed_of_cache_eq rfl⟩,
            fun p n he hne => GoType.noConfusion he⟩
        | int =>
          obtain ⟨e1, e2⟩ := ok_pair_eq h
          subst e1
          subst e2
          exact ⟨⟨goodSt_congr rfl rfl hg, monoNamed_of_cache_eq rfl⟩,
            fun p n he hne => GoType.noConfusion he⟩
        | int8 =>
          obtain ⟨e1, e2⟩ := ok_pair_eq h
          subst e1
          subst e2
          exact ⟨⟨goodSt_congr rfl rfl hg, monoNamed_of_cache_eq rfl⟩,
            fun p n he hne => GoType.noConfusion he⟩
        | int16 =>
          obtain ⟨e1, e2⟩ := ok_pair_eq h
          subst e1
          subst e2
          exact ⟨⟨goodSt_congr rfl rfl hg, monoNamed_of_cache_eq rfl⟩,
            fun p n he hne => GoType.noConfusion he⟩
        | int32 =>
          obtain ⟨e1, e2⟩ := ok_pair_eq h
          subst e1
          subst e2
          exact ⟨⟨goodSt_congr rfl rfl hg, monoNamed_of_cache_eq rfl⟩,
            fun p n he hne => GoType.noConfusion he⟩
        | int64 =>
          obtain ⟨e1, e2⟩ := ok_pair_eq h
          subst e1
          subst e2
          exact ⟨⟨goodSt_congr rfl rfl hg, monoNamed_of_cache_eq rfl⟩,
            fun p n he hne => GoType.noConfusion he⟩
        | uint =>
          obtain ⟨e1, e2⟩ := ok_pair_eq h
          subst e1
          subst e2
          exact ⟨⟨goodSt_congr rfl rfl hg, monoNamed_of_cache_eq rfl⟩,
            fun p n he hne => GoType.noConfusion he⟩
        | uint8 =>
          obtain ⟨e1, e2⟩ := ok_pair_eq h
          subst e1
          subst e2
          exact ⟨⟨goodSt_congr rfl rfl hg, monoNamed_of_cache_eq rfl⟩,
            fun p n he hne => GoType.noConfusion he⟩
        | uint16 =>
          obtain ⟨e1, e2⟩ := ok_pair_eq h
          subst e1
          subst e2
          exact ⟨⟨goodSt_congr rfl rfl hg, monoNamed_of_cache_eq rfl⟩,
            fun p n he hne => GoType.noConfusion he⟩
        | uint32 =>
          obtain ⟨e1, e2⟩ := ok_pair_eq h
          subst e1
          subst e2
          exact ⟨⟨goodSt_congr rfl rfl hg, monoNamed_of_cache_eq rfl⟩,
            fun p n he hne => GoType.noConfusion he⟩
        | uint64 =>
          obtain ⟨e1, e2⟩ := ok_pair_eq h
          subst e1
          subst e2
          exact ⟨⟨goodSt_congr rfl rfl hg, monoNamed_of_cache_eq rfl⟩,
            fun p n he hne => GoType.noConfusion he⟩
        | float32 =>
          obtain ⟨e1, e2⟩ := ok_pair_eq h
          subst e1
          subst e2
          exact ⟨⟨goodSt_congr rfl rfl hg, monoNamed_of_cache_eq rfl⟩,
            fun p n he hne => GoType.noConfusion he⟩
        | float64 =>
          obtain ⟨e1, e2⟩ := ok_pair_eq h
          subst e1
          subst e2
          exact ⟨⟨goodSt_congr rfl rfl hg, monoNamed_of_cache_eq rfl⟩,
            fun p n he hne => GoType.noConfusion he⟩
        | string =>
          obtain ⟨e1, e2⟩ := ok_pair_eq h
          subst e1
          subst e2
          exact ⟨⟨goodSt_congr rfl rfl hg, monoNamed_of_cache_eq rfl⟩,
            fun p n he hne => GoType.noConfusion he⟩
        | iface =>
          obtain ⟨e1, e2⟩ := ok_pair_eq h
          subst e1
          subst e2
          exact ⟨⟨goodSt_congr rfl rfl hg, monoNamed_of_cache_eq rfl⟩,
            fun p n he hne => GoType.noConfusion he⟩
        | timeTime =>
          obtain ⟨e1, e2⟩ := ok_pair_eq h
          subst e1
          subst e2
          exact ⟨⟨goodSt_congr rfl rfl hg, monoNamed_of_cache_eq rfl⟩,
            fun p n he hne => GoType.noConfusion he⟩
        | uuid =>
          obtain ⟨e1, e2⟩ := ok_pair_eq h
          subst e1
          subst e2
          exact ⟨⟨goodSt_congr rfl rfl hg, monoNamed_of_cache_eq rfl⟩,
            fun p n he hne => GoType.noConfusion he⟩
        | decimal =>
          obtain ⟨e1, e2⟩ := ok_pair_eq h
          subst e1
          subst e2
          exact ⟨⟨goodSt_congr rfl rfl hg, monoNamed_of_cache_eq rfl⟩,
            fun p n he hne => GoType.noConfusion he⟩
        | slice elem =>
          dsimp only [] at h
          by_cases hk : elem.kindIsUint8 = true
          · rw [if_pos hk] at h
            obtain ⟨e1, e2⟩ := ok_pair_eq h
            subst e1
            subst e2
            exact ⟨⟨goodSt_congr rfl rfl hg, monoNamed_of_cache_eq rfl⟩,
              fun p n he hne => GoType.noConfusion he⟩
          · rw [if_neg hk] at h
            obtain ⟨⟨st₁, itemRef⟩, hitem, hcont⟩ := (except_bind_ok _ _ _).mp h
            obtain ⟨hg₁, hm₁⟩ := ihF _ _ _ _ hitem hg
            obtain ⟨e1, e2⟩ := ok_pair_eq hcont
            subst e1
            subst e2
            exact ⟨⟨goodSt_congr rfl rfl hg₁, monoNamed_congr rfl hm₁⟩,
              fun p n he hne => GoType.noConfusion he⟩
        | array elem =>
          dsimp only [] at h
          obtain ⟨⟨st₁, itemRef⟩, hitem, hcont⟩ := (except_bind_ok _ _ _).mp h
          obtain ⟨hg₁, hm₁⟩ := ihF _ _ _ _ hitem hg
          obtain ⟨e1, e2⟩ := ok_pair_eq hcont
          subst e1
          subst e2
          exact ⟨⟨goodSt_congr rfl rfl hg₁, monoNamed_congr rfl hm₁⟩,
            fun p n he hne => GoType.noConfusion he⟩
        | map key value =>
          dsimp only [] at h
          by_cases hk : (!key.kindIsString) = true
          · rw [if_pos hk] at h
            exact Except.noConfusion h
          · rw [if_neg hk] at h
            obtain ⟨⟨st₁, valueRef⟩, hval, hcont⟩ := (except_bind_ok _ _ _).mp h
            obtain ⟨hg₁, hm₁⟩ := ihF _ _ _ _ hval hg
            obtain ⟨e1, e2⟩ := ok_pair_eq hcont
            subst e1
            subst e2
            exact ⟨⟨goodSt_congr rfl rfl hg₁, monoNamed_congr rfl hm₁⟩,
              fun p n he hne => GoType.noConfusion he⟩
        | named pkgPath name => exact ihS _ _ _ _ h hg
        | anonStruct fields => exact ihS _ _ _ _ h hg
        | ptr e => exact Except.noConfusion h
        | unsupported d => exact Except.noConfusion h
    · -- buildStructSchema
      intro st t st' r h hg
      rw [buildStructSchema_succ] at h
      cases hsfc : structFields env t with
      | none =>
        rw [hsfc] at h
        cases t <;> exact Except.noConfusion h
      | some fds =>
        rw [hsfc] at h
        dsimp only [] at h
        by_cases hcn : componentName t ≠ []
        · rw [if_pos hcn] at h
          obtain ⟨p₀, n₀, rfl⟩ : ∃ p₀ n₀, t = .named p₀ n₀ := by
            cases t
            case named p n => exact ⟨p, n, rfl⟩
            all_goals exact absurd rfl hcn
          have hn₀ : n₀ ≠ [] := by
            intro e
            subst e
            exact hcn rfl
          cases hcl : st.schemaCache.lookup (GoType.named p₀ n₀) with
          | some r₀ =>
            rw [hcl] at h
            obtain ⟨e1, e2⟩ := ok_pair_eq h
            subst e1
            subst e2
            exact ⟨⟨goodSt_congr rfl rfl hg, monoNamed_of_cache_eq rfl⟩,
              fun p n he hne => hcl⟩
          | none =>
            rw [hcl] at h
            obtain ⟨⟨st₃, pop⟩, hpop, hrest⟩ := (except_bind_ok _ _ _).mp h
            obtain ⟨hg₂, hm₂⟩ := good_register env hinj st p₀ n₀ ⟨[], some st.nextId⟩ fds
              hsfc hcl hg
              ⟨st.nextId + 1,
                (st.nextId,
                  { NewObjectSchema with properties := some [], required := [], allOf := [] })
                  :: st.store,
                (GoType.named p₀ n₀, (⟨[], some st.nextId⟩ : SchemaRef)) :: st.schemaCache,
                mapSet (componentName (GoType.named p₀ n₀)) ⟨[], some st.nextId⟩ st.schemas⟩
              rfl rfl
            obtain ⟨hg₃, hm₃⟩ := ihP _ _ _ _ _ _ hpop hg₂
            dsimp only [] at hrest
            cases hhk : ExecuteOnSchemaGenerate plugins (componentName (GoType.named p₀ n₀)) pop with
            | error e =>
              rw [hhk] at hrest
              exact Except.noConfusion hrest
            | ok hooked =>
              rw [hhk] at hrest
              dsimp only [] at hrest
              obtain ⟨e1, e2⟩ := ok_pair_eq hrest
              subst e1
              subst e2
              refine ⟨⟨?_, ?_⟩, ?_⟩
              · exact goodSt_congr rfl rfl hg₃
              · exact monoNamed_congr rfl (monoNamed_trans hm₂ hm₃)
              · intro p' n' he' hne'
                exact hm₃ p₀ n₀ ⟨[], some st.nextId⟩ hn₀ (lookup_cons_self _ _ _)
        · rw [if_neg hcn] at h
          have hcn0 : componentName t = [] := not_not.mp hcn
          obtain ⟨⟨st₃, pop⟩, hpop, hrest⟩ := (except_bind_ok _ _ _).mp h
          obtain ⟨hg₃, hm₃⟩ := ihP _ _ _ _ _ _ hpop hg
          dsimp only [] at hrest
          obtain ⟨e1, e2⟩ := ok_pair_eq hrest
          subst e1
          subst e2
          have hmem : ∀ p n, t = .named p n → (p, n) ∈ env.map Prod.fst := by
            intro p n he
            subst he
            exact lookup_some_mem_keys hsfc
          obtain ⟨hgf, hmf⟩ := good_cons_unnamed env st₃
            { st₃ with schemaCache :=
                (t, (⟨[], some st.nextId⟩ : SchemaRef)) :: st₃.schemaCache }
            t ⟨[], some st.nextId⟩ hcn0 hmem rfl rfl hg₃
          refine ⟨⟨?_, ?_⟩, ?_⟩
          · exact hgf
          · exact monoNamed_trans hm₃ hmf
          · intro p' n' he' hne'
            subst he'
            exact absurd hcn0 (componentName_ne_nil p' n' hne')
    · -- populateStructSchema
      intro st sid sc fds st' sc' h hg
      cases fds with
      | nil =>
        rw [populateStructSchema_nil] at h
        obtain ⟨e1, e2⟩ := ok_pair_eq h
        subst e1
        exact ⟨hg, monoNamed_refl _⟩
      | cons field rest =>
        rw [populateStructSchema_cons_succ] at h
        by_cases h1 : field.pkgPath ≠ [] ∧ !field.anonymous
        · rw [if_pos h1] at h
          exact ihP _ _ _ _ _ _ h hg
        · rw [if_neg h1] at h
          by_cases h2 : field.anonymous = true
          · rw [if_pos h2] at h
            obtain ⟨⟨st₁, r₁⟩, hr₁, hrest⟩ := (except_bind_ok _ _ _).mp h
            obtain ⟨hg₁, hm₁⟩ := ihF _ _ _ _ hr₁ hg
            dsimp only [] at hrest
            obtain ⟨hg₂, hm₂⟩ := ihP _ _ _ _ _ _ hrest hg₁
            exact ⟨hg₂, monoNamed_trans hm₁ hm₂⟩
          · rw [if_neg h2] at h
            cases hjn : jsonName field with
            | mk jname skip =>
              rw [hjn] at h
              cases skip with
              | true =>
                dsimp only [] at h
                exact ihP _ _ _ _ _ _ h hg
              | false =>
                dsimp only [] at h
                by_cases hf : (field.tagFormat = gs "binary" ∨ field.tagFormat = gs "file")
                · have hfb : decide (field.tagFormat = gs "binary" ∨
                      field.tagFormat = gs "file") = true := by simp [hf]
                  simp only [hfb, if_true, Bind.bind, Except.bind, pure, Except.pure] at h
                  repeat' split at h
                  all_goals
                    obtain ⟨hg₂, hm₂⟩ := ihP _ _ _ _ _ _ h hg
                  all_goals
                    exact ⟨hg₂, hm₂⟩
                · have hfb : decide (field.tagFormat = gs "binary" ∨
                      field.tagFormat = gs "file") = false := by simp [hf]
                  simp only [hfb, Bool.false_eq_true, if_false] at h
                  obtain ⟨⟨st₁, childRef⟩, hchild, hrest⟩ := (except_bind_ok _ _ _).mp h
                  obtain ⟨hg₁, hm₁⟩ := ihF _ _ _ _ hchild hg
                  dsimp only [] at hrest
                  repeat' split at hrest
                  all_goals
                    obtain ⟨hg₂, hm₂⟩ := ihP _ _ _ _ _ _ hrest hg₁
                  all_goals
                    exact ⟨hg₂, monoNamed_trans hm₁ hm₂⟩

theorem goodSt_empty (env : TypeEnv) : GoodSt env ({} : BuildState) := by
  refine ⟨?_, ?_, ?_⟩
  · intro p n r hr
    exact Option.noConfusion hr
  · intro p n r hr hne
    exact Option.noConfusion hr
  · exact List.Pairwise.nil

theorem envInj_exEnv : EnvInj exEnv := by
  intro k₁ k₂ h1 h2 hcc
  have e1 : k₁ = (gs "models", gs "User") := by
    simpa [exEnv] using h1
  have e2 : k₂ = (gs "models", gs "User") := by
    simpa [exEnv] using h2
  rw [e1, e2]

/-- C4: within one build, a named struct type yields a single shared
component.  From an invariant-respecting state, a successful
`schemaRefNonNull` call on a named type leaves the returned ref in the
build-scoped cache, so a later occurrence of the type (any further
call, of any depth) returns that exact ref without touching the state,
the component table stores that same ref under the type's component
name, and — provided distinct declared types keep distinct sanitized
component names — the finished component table holds exactly one entry
for that name. -/
theorem component_sharing (env : TypeEnv) (plugins : List Plugin) (fuel : Nat)
    (st st₁ : BuildState) (p n : GoStr) (r₁ : SchemaRef)
    (hinj : EnvInj env) (hg : GoodSt env st) (hn : n ≠ [])
    (h : schemaRefNonNull env plugins fuel st (.named p n) = .ok (st₁, r₁)) :
    st₁.schemaCache.lookup (.named p n) = some r₁ ∧
      (∀ fuel', schemaRefNonNull env plugins (fuel' + 1) st₁ (.named p n) = .ok (st₁, r₁)) ∧
      st₁.schemas.lookup (componentName (.named p n)) = some r₁ ∧
      (st₁.schemas.filter (fun e => e.1 = componentName (.named p n))).length = 1 := by
  obtain ⟨⟨hg₁, _⟩, hcache⟩ :=
    ((builder_good env plugins hinj fuel).2.1) st (.named p n) st₁ r₁ h hg
  have ha : st₁.schemaCache.lookup (.named p n) = some r₁ := hcache p n rfl hn
  have hcomp : st₁.schemas.lookup (componentName (.named p n)) = some r₁ :=
    hg₁.2.1 p n r₁ ha (componentName_ne_nil p n hn)
  refine ⟨ha, ?_, hcomp, ?_⟩
  · intro fuel'
    rw [schemaRefNonNull_succ, ha]
  · exact count_key_one _ _ r₁ hg₁.2.2 hcomp

/-- Witness for `component_sharing`: building `models.User` caches its
ref, a second build returns the identical state and ref, and the
component table holds exactly one `models_User` entry with that ref. -/
theorem component_sharing_witness :
    exUserNNRun = .ok (exUserNNSt, exUserNNRef) ∧
      exUserNNSt.schemaCache.lookup exUser = some exUserNNRef ∧
      schemaRefNonNull exEnv [] 6 exUserNNSt exUser = .ok (exUserNNSt, exUserNNRef) ∧
      exUserNNSt.schemas.lookup (componentName exUser) = some exUserNNRef ∧
      (exUserNNSt.schemas.filter (fun e => e.1 = componentName exUser)).length = 1 := by
  have h : schemaRefNonNull exEnv [] 10 {} exUser = .ok (exUserNNSt, exUserNNRef) := by
    decide
  have hmain := component_sharing exEnv [] 10 {} exUserNNSt (gs "models") (gs "User")
    exUserNNRef envInj_exEnv (goodSt_empty exEnv) (by decide) h
  exact ⟨h, hmain.1, hmain.2.1 5, hmain.2.2.1, hmain.2.2.2⟩

/-!
Claim C2: two-run determinism of snapshot-then-build.  The snapshot's
sort makes the route order canonical whenever no two descriptors share
a `(path, method)` key, and the name sort makes the hook order
canonical whenever plugin names are distinct (the plugin registry's
map keys force this); the assembler is a pure function of those sorted
sequences.  With a duplicated `(path, method)` key the registration
order leaks into the document, refuting the unqualified claim.
-/

theorem eq_of_perm_of_sortedLE {α : Type} (le : α → α → Bool) :
    ∀ l₁ l₂ : List α, l₁.Perm l₂ →
      l₁.Pairwise (fun a b => le a b = true) →
      l₂.Pairwise (fun a b => le a b = true) →
      (∀ a, a ∈ l₁ → ∀ b, b ∈ l₁ → le a b = true → le b a = true → a = b) →
      l₁ = l₂ := by
  intro l₁
  induction l₁ with
  | nil =>
    intro l₂ hp _ _ _
    exact hp.nil_eq
  | cons a t₁ ih =>
    intro l₂ hp hs₁ hs₂ hanti
    cases l₂ with
    | nil =>
      have := hp.length_eq
      simp at this
    | cons b t₂ =>
      have hs₁' := List.pairwise_cons.mp hs₁
      have hs₂' := List.pairwise_cons.mp hs₂
      have hab : a = b := by
        by_cases he : a = b
        · exact he
        · have ha2 : a ∈ b :: t₂ := hp.mem_iff.mp (List.mem_cons_self a t₁)
          have ha2' : a ∈ t₂ := by
            rcases List.mem_cons.mp ha2 with h' | h'
            · exact absurd h' he
            · exact h'
          have hb1 : b ∈ a :: t₁ := hp.mem_iff.mpr (List.mem_cons_self b t₂)
          have hb1' : b ∈ t₁ := by
            rcases List.mem_cons.mp hb1 with h' | h'
            · exact absurd h'.symm he
            · exact h'
          exact hanti a (List.mem_cons_self a t₁) b hb1 (hs₁'.1 b hb1') (hs₂'.1 a ha2')
      subst hab
      have hrec := ih t₂ hp.cons_inv hs₁'.2 hs₂'.2
        (fun x hx y hy => hanti x (List.mem_cons_of_mem a hx) y (List.mem_cons_of_mem a hy))
      rw [hrec]

theorem sortByLE_eq_of_perm {α : Type} (le : α → α → Bool)
    (htrans : ∀ a b c, le a b = true → le b c = true → le a c = true)
    (htotal : ∀ a b, (le a b || le b a) = true)
    (l₁ l₂ : List α) (hp : l₁.Perm l₂)
    (hanti : ∀ a, a ∈ l₁ → ∀ b, b ∈ l₁ → le a b = true → le b a = true → a = b) :
    sortByLE le l₁ = sortByLE le l₂ :=
  eq_of_perm_of_sortedLE le (sortByLE le l₁) (sortByLE le l₂)
    ((sortByLE_perm le l₁).trans (hp.trans (sortByLE_perm le l₂).symm))
    (sortByLE_sorted le htrans htotal l₁)
    (sortByLE_sorted le htrans htotal l₂)
    (fun x hx y hy =>
      hanti x ((sortByLE_perm le l₁).mem_iff.mp hx) y ((sortByLE_perm le l₁).mem_iff.mp hy))

theorem routeLE_antisymm_key (a b : RouteRef) (h1 : routeLE a b = true)
    (h2 : routeLE b a = true) : a.path = b.path ∧ a.method = b.method := by
  rw [routeLE_iff] at h1 h2
  rcases h1 with h1 | ⟨e1, m1⟩
  · rcases h2 with h2 | ⟨e2, m2⟩
    · exact absurd h2 (lt_asymm h1)
    · rw [e2] at h1
      exact absurd h1 (lt_irrefl _)
  · rcases h2 with h2 | ⟨e2, m2⟩
    · rw [e1] at h2
      exact absurd h2 (lt_irrefl _)
    · exact ⟨e1, le_antisymm m1 m2⟩

theorem pluginLE_trans (p q r : Plugin) (h1 : pluginLE p q = true)
    (h2 : pluginLE q r = true) : pluginLE p r = true := by
  simp only [pluginLE, decide_eq_true_eq] at h1 h2 ⊢
  exact le_trans h1 h2

theorem pluginLE_total (p q : Plugin) : (pluginLE p q || pluginLE q p) = true := by
  simp only [pluginLE]
  rcases le_total p.name q.name with h | h
  · simp [h]
  · simp [h]

theorem snapshot_eq_of_perm (routes₁ routes₂ : List RouteRef)
    (hperm : routes₁.Perm routes₂)
    (hkeys : routes₁.Pairwise (fun a c => ¬(a.path = c.path ∧ a.method = c.method))) :
    Snapshot routes₁ = Snapshot routes₂ := by
  have hsym : Symmetric (fun a c : RouteRef => ¬(a.path = c.path ∧ a.method = c.method)) :=
    fun a c h hc => h ⟨hc.1.symm, hc.2.symm⟩
  have hanti : ∀ a, a ∈ routes₁ → ∀ b, b ∈ routes₁ →
      routeLE a b = true → routeLE b a = true → a = b := by
    intro a ha b hb h1 h2
    by_cases he : a = b
    · exact he
    · exact absurd (routeLE_antisymm_key a b h1 h2)
        (List.Pairwise.forall hsym hkeys ha hb he)
  exact sortByLE_eq_of_perm routeLE routeLE_trans routeLE_total routes₁ routes₂ hperm hanti

theorem builderAt_plugins_congr (env : TypeEnv) (p₁ p₂ : List Plugin)
    (hs : getPluginsSorted p₁ = getPluginsSorted p₂) :
    ∀ fuel, builderAt env p₁ fuel = builderAt env p₂ fuel := by
  have hEx : ExecuteOnSchemaGenerate p₁ = ExecuteOnSchemaGenerate p₂ := by
    funext n s
    rw [ExecuteOnSchemaGenerate, ExecuteOnSchemaGenerate, hs]
  intro fuel
  induction fuel with
  | zero => rfl
  | succ fuel ih =>
    show builderSucc env p₁ (builderAt env p₁ fuel) = builderSucc env p₂ (builderAt env p₂ fuel)
    rw [ih]
    unfold builderSucc
    rw [hEx]

theorem Build_plugins_congr (b : Builder) (env : TypeEnv) (fuel : Nat)
    (routes : List RouteRef) (p₁ p₂ : List Plugin)
    (hs : getPluginsSorted p₁ = getPluginsSorted p₂) :
    Build b env p₁ fuel routes = Build b env p₂ fuel routes := by
  have hBA : builderAt env p₁ = builderAt env p₂ :=
    funext (builderAt_plugins_congr env p₁ p₂ hs)
  have hEx2 : ExecuteOnSpecBuild p₁ = ExecuteOnSpecBuild p₂ := by
    funext d
    rw [ExecuteOnSpecBuild, ExecuteOnSpecBuild, hs]
  unfold Build addRoute buildOperation buildRequestBody buildResponse schemaFromTypes
    schemaRefFromType
  rw [hBA, hEx2]

/-- C2 (corrected): snapshot-then-build is a pure function whose output
does not depend on the registration order of the descriptors nor the
iteration order of the hook-observer map — hence two runs produce the
same document, with the same path ordering, parameter ordering and
component keys — provided no two descriptors share a `(path, method)`
pair and plugin names are pairwise distinct.  (The original claim's
unconditional form fails; see the counterexample.) -/
theorem snapshot_build_determinism (b : Builder) (env : TypeEnv) (fuel : Nat)
    (routes₁ routes₂ : List RouteRef) (plugins₁ plugins₂ : List Plugin)
    (hperm : routes₁.Perm routes₂)
    (hkeys : routes₁.Pairwise (fun a c => ¬(a.path = c.path ∧ a.method = c.method)))
    (hpperm : plugins₁.Perm plugins₂)
    (hpnames : plugins₁.Pairwise (fun p q => p.name ≠ q.name)) :
    Build b env plugins₁ fuel (Snapshot routes₁) =
      Build b env plugins₂ fuel (Snapshot routes₂) := by
  have hr : Snapshot routes₁ = Snapshot routes₂ :=
    snapshot_eq_of_perm routes₁ routes₂ hperm hkeys
  have hnamesym : Symmetric (fun p q : Plugin => p.name ≠ q.name) :=
    fun p q h e => h e.symm
  have hanti : ∀ a, a ∈ plugins₁ → ∀ b, b ∈ plugins₁ →
      pluginLE a b = true → pluginLE b a = true → a = b := by
    intro a ha b hb h1 h2
    by_cases he : a = b
    · exact he
    · simp only [pluginLE, decide_eq_true_eq] at h1 h2
      exact absurd (le_antisymm h1 h2) (List.Pairwise.forall hnamesym hpnames ha hb he)
  have hp : getPluginsSorted plugins₁ = getPluginsSorted plugins₂ :=
    sortByLE_eq_of_perm pluginLE pluginLE_trans pluginLE_total plugins₁ plugins₂ hpperm hanti
  rw [hr]
  exact Build_plugins_congr b env fuel (Snapshot routes₂) plugins₁ plugins₂ hp

/-- Witness for `snapshot_build_determinism`: two distinct-path routes
and two distinct-name plugins, both in swapped orders, build the same
document. -/
theorem snapshot_build_determinism_witness :
    ([exDetA, exDetB] : List RouteRef).Perm [exDetB, exDetA] ∧
      ([exPlugA, exPlugB] : List Plugin).Perm [exPlugB, exPlugA] ∧
      Build NewBuilder [] [exPlugA, exPlugB] 1 (Snapshot [exDetA, exDetB]) =
        Build NewBuilder [] [exPlugB, exPlugA] 1 (Snapshot [exDetB, exDetA]) := by
  refine ⟨List.Perm.swap _ _ _, List.Perm.swap _ _ _, ?_⟩
  exact snapshot_build_determinism NewBuilder [] 1 [exDetA, exDetB] [exDetB, exDetA]
    [exPlugA, exPlugB] [exPlugB, exPlugA]
    (List.Perm.swap _ _ _) (by decide) (List.Perm.swap _ _ _) (by decide)

/-- Counterexample to the unqualified determinism claim: two
descriptors sharing path and method.  The snapshot's stable sort
preserves their registration order and the later one overwrites the
method slot, so the two registration orders build different
documents. -/
theorem snapshot_build_order_dependent :
    ([exDup1, exDup2] : List RouteRef).Perm [exDup2, exDup1] ∧
      Build NewBuilder [] [] 1 (Snapshot [exDup1, exDup2]) ≠
        Build NewBuilder [] [] 1 (Snapshot [exDup2, exDup1]) :=
  ⟨List.Perm.swap _ _ _, by decide⟩

/-!
Claim C3: recursion through the cache.  For a named struct whose fields
mention only itself and primitive leaves (through any chain of
pointers, slices, arrays and string-keyed maps), every recursive
occurrence met during field population hits the cache entry registered
before population, so the builder never runs out of fuel and — the
hooks permitting — returns successfully within a computable bound.
-/

theorem except_bind_error {ε α β : Type} (m : Except ε α) (f : α → Except ε β) (e : ε) :
    (m >>= f) = .error e ↔ m = .error e ∨ ∃ a, m = .ok a ∧ f a = .error e := by
  cases m with
  | ok a => simp [Bind.bind, Except.bind]
  | error e' => simp [Bind.bind, Except.bind]

theorem exceptIsOk_of_ne_error {ε α : Type} (x : Except ε α)
    (h : ∀ e, ¬(x = .error e)) : exceptIsOk x = true := by
  cases x with
  | ok a => rfl
  | error e => exact absurd rfl (h e)

theorem tsize_strip_le (t : GoType) : t.stripAllPtr.tsize ≤ t.tsize := by
  suffices hh : ∀ (k : Nat) (t : GoType), t.tsize ≤ k → t.stripAllPtr.tsize ≤ t.tsize from
    hh t.tsize t (le_refl _)
  intro k
  induction k with
  | zero =>
    intro t h
    cases t <;> exact absurd h (Nat.not_succ_le_zero _)
  | succ k ih =>
    intro t h
    cases t
    case ptr e =>
      have h3 : (GoType.ptr e).tsize = e.tsize + 1 := rfl
      have he : e.tsize ≤ k := by omega
      have h1 : (GoType.ptr e).stripAllPtr = e.stripAllPtr := rfl
      rw [h1, h3]
      have h2 := ih e he
      omega
    all_goals exact le_refl _

theorem selfPrim_strip (self : GoType) (t : GoType)
    (h : selfPrimType self t = true) : selfPrimType self t.stripAllPtr = true := by
  suffices hh : ∀ (k : Nat) (t : GoType), t.tsize ≤ k → selfPrimType self t = true →
      selfPrimType self t.stripAllPtr = true from hh t.tsize t (le_refl _) h
  intro k
  induction k with
  | zero =>
    intro t hsz _
    cases t <;> exact absurd hsz (Nat.not_succ_le_zero _)
  | succ k ih =>
    intro t hsz hp
    cases t
    case ptr e =>
      have h3 : (GoType.ptr e).tsize = e.tsize + 1 := rfl
      have he : e.tsize ≤ k := by omega
      exact ih e he hp
    all_goals exact hp

theorem strip_not_ptr (t : GoType) : ∀ e', t.stripAllPtr ≠ .ptr e' := by
  suffices hh : ∀ (k : Nat) (t : GoType), t.tsize ≤ k → ∀ e', t.stripAllPtr ≠ .ptr e' from
    hh t.tsize t (le_refl _)
  intro k
  induction k with
  | zero =>
    intro t hsz
    cases t <;> exact absurd hsz (Nat.not_succ_le_zero _)
  | succ k ih =>
    intro t hsz e'
    cases t
    case ptr e =>
      have h3 : (GoType.ptr e).tsize = e.tsize + 1 := rfl
      have he : e.tsize ≤ k := by omega
      exact ih e he e'
    all_goals exact fun hcontra => GoType.noConfusion hcontra

theorem popNeed_pos (fds : GoFields) : 1 ≤ popNeed fds := by
  cases fds with
  | nil => exact le_refl 1
  | cons field rest =>
    cases field with
    | mk a1 a2 a3 a4 a5 a6 a7 a8 a9 t =>
      have hpn : popNeed (.cons (.mk a1 a2 a3 a4 a5 a6 a7 a8 a9 t) rest) =
          2 * t.tsize + 3 + popNeed rest := rfl
      omega

set_option maxHeartbeats 3200000 in
/-- On the recursion claim's input class, provided the self type is
already cached, no builder call with fuel at least the stated bound can
return an error: primitives succeed outright, containers recurse into
structurally smaller types, and the self reference is answered by the
cache. -/
theorem selfPrim_no_error (env : TypeEnv) (plugins : List Plugin) (hinj : EnvInj env)
    (p n : GoStr) (hn : n ≠ []) (rSelf : SchemaRef) :
    ∀ f : Nat,
      (∀ τ st e, schemaRefFromType env plugins f st τ = .error e →
        selfPrimType (.named p n) τ = true → 2 * τ.tsize + 2 ≤ f →
        GoodSt env st → st.schemaCache.lookup (.named p n) = some rSelf → False) ∧
      (∀ σ st e, schemaRefNonNull env plugins f st σ = .error e →
        selfPrimType (.named p n) σ = true → (∀ e', σ ≠ .ptr e') →
        2 * σ.tsize + 1 ≤ f →
        GoodSt env st → st.schemaCache.lookup (.named p n) = some rSelf → False) ∧
      (∀ fds st sid sc e, populateStructSchema env plugins f st sid sc fds = .error e →
        selfPrimFields (.named p n) fds = true → popNeed fds ≤ f →
        GoodSt env st → st.schemaCache.lookup (.named p n) = some rSelf → False) := by
  intro f
  induction f with
  | zero =>
    refine ⟨?_, ?_, ?_⟩
    · intro τ st e herr hpred hb hg hc
      omega
    · intro σ st e herr hpred hnp hb hg hc
      omega
    · intro fds st sid sc e herr hpred hb hg hc
      have := popNeed_pos fds
      omega
  | succ f ih =>
    obtain ⟨ihF, ihN, ihP⟩ := ih
    refine ⟨?_, ?_, ?_⟩
    · -- schemaRefFromType
      intro τ st e herr hpred hb hg hc
      rw [schemaRefFromType_succ] at herr
      rcases (except_bind_error _ _ _).mp herr with hm | ⟨⟨st₁, baseRef⟩, hok, hkk⟩
      · exact ihN τ.stripAllPtr st e hm (selfPrim_strip _ τ hpred) (strip_not_ptr τ)
          (by have := tsize_strip_le τ; omega) hg hc
      · dsimp only [] at hkk
        split at hkk
        · exact Except.noConfusion hkk
        · exact Except.noConfusion hkk
    · -- schemaRefNonNull
      intro σ st e herr hpred hnp hb hg hc
      rw [schemaRefNonNull_succ] at herr
      cases hcl : st.schemaCache.lookup σ with
      | some cached =>
        rw [hcl] at herr
        exact Except.noConfusion herr
      | none =>
        rw [hcl] at herr
        dsimp only [] at herr
        cases σ with
        | bool => exact Except.noConfusion herr
        | int => exact Except.noConfusion herr
        | int8 => exact Except.noConfusion herr
        | int16 => exact Except.noConfusion herr
        | int32 => exact Except.noConfusion herr
        | int64 => exact Except.noConfusion herr
        | uint => exact Except.noConfusion herr
        | uint8 => exact Except.noConfusion herr
        | uint16 => exact Except.noConfusion herr
        | uint32 => exact Except.noConfusion herr
        | uint64 => exact Except.noConfusion herr
        | float32 => exact Except.noConfusion herr
        | float64 => exact Except.noConfusion herr
        | string => exact Except.noConfusion herr
        | iface => exact Except.noConfusion herr
        | timeTime => exact Except.noConfusion herr
        | uuid => exact Except.noConfusion herr
        | decimal => exact Except.noConfusion herr
        | slice elem =>
          dsimp only [] at herr
          have hpe : selfPrimType (GoType.named p n) elem = true := hpred
          have ht : (GoType.slice elem).tsize = elem.tsize + 1 := rfl
          by_cases hk8 : elem.kindIsUint8 = true
          · rw [if_pos hk8] at herr
            exact Except.noConfusion herr
          · rw [if_neg hk8] at herr
            rcases (except_bind_error _ _ _).mp herr with hm | ⟨⟨st₁, r₁⟩, hok, hkk⟩
            · exact ihF elem st e hm hpe (by omega) hg hc
            · dsimp only [] at hkk
              exact Except.noConfusion hkk
        | array elem =>
          dsimp only [] at herr
          have hpe : selfPrimType (GoType.named p n) elem = true := hpred
          have ht : (GoType.array elem).tsize = elem.tsize + 1 := rfl
          rcases (except_bind_error _ _ _).mp herr with hm | ⟨⟨st₁, r₁⟩, hok, hkk⟩
          · exact ihF elem st e hm hpe (by omega) hg hc
          · dsimp only [] at hkk
            exact Except.noConfusion hkk
        | map key value =>
          dsimp only [] at herr
          have hand : (key.kindIsString && selfPrimType (GoType.named p n) value) = true :=
            hpred
          rw [Bool.and_eq_true] at hand
          have ht : (GoType.map key value).tsize = value.tsize + 1 := rfl
          have hkf : (!key.kindIsString) = false := by
            rw [hand.1]
            rfl
          simp only [hkf, Bool.false_eq_true, if_false] at herr
          rcases (except_bind_error _ _ _).mp herr with hm | ⟨⟨st₁, r₁⟩, hok, hkk⟩
          · exact ihF value st e hm hand.2 (by omega) hg hc
          · dsimp only [] at hkk
            exact Except.noConfusion hkk
        | named pkg nm =>
          have hd := of_decide_eq_true
            (show decide (GoType.named pkg nm = GoType.named p n) = true from hpred)
          rw [hd] at hcl
          rw [hc] at hcl
          exact Option.noConfusion hcl
        | anonStruct fs =>
          exact GoType.noConfusion (of_decide_eq_true
            (show decide (GoType.anonStruct fs = GoType.named p n) = true from hpred))
        | ptr e₀ => exact absurd rfl (hnp e₀)
        | unsupported d =>
          exact GoType.noConfusion (of_decide_eq_true
            (show decide (GoType.unsupported d = GoType.named p n) = true from hpred))
    · -- populateStructSchema
      intro fds st sid sc e herr hpred hb hg hc
      cases fds with
      | nil =>
        rw [populateStructSchema_nil] at herr
        exact Except.noConfusion herr
      | cons field rest =>
        have hsplit : selfPrimType (GoType.named p n) field.fieldType = true ∧
            selfPrimFields (GoType.named p n) rest = true := by
          cases field with
          | mk a1 a2 a3 a4 a5 a6 a7 a8 a9 t =>
            have hx : (selfPrimType (GoType.named p n) t &&
                selfPrimFields (GoType.named p n) rest) = true := hpred
            rw [Bool.and_eq_true] at hx
            exact hx
        have hpn : popNeed (GoFields.cons field rest) =
            2 * field.fieldType.tsize + 3 + popNeed rest := by
          cases field with
          | mk a1 a2 a3 a4 a5 a6 a7 a8 a9 t => rfl
        have hppos := popNeed_pos rest
        rw [populateStructSchema_cons_succ] at herr
        by_cases h1 : field.pkgPath ≠ [] ∧ !field.anonymous
        · rw [if_pos h1] at herr
          exact ihP rest st sid sc e herr hsplit.2 (by omega) hg hc
        · rw [if_neg h1] at herr
          by_cases h2 : field.anonymous = true
          · rw [if_pos h2] at herr
            rcases (except_bind_error _ _ _).mp herr with hm | ⟨⟨st₁, r₁⟩, hok, hkk⟩
            · exact ihF field.fieldType st e hm hsplit.1 (by omega) hg hc
            · obtain ⟨hg₁, hm₁⟩ :=
                (builder_good env plugins hinj f).1 st field.fieldType st₁ r₁ hok hg
              have hc₁ := hm₁ p n rSelf hn hc
              dsimp only [] at hkk
              exact ihP rest _ sid _ e hkk hsplit.2 (by omega) hg₁ hc₁
          · rw [if_neg h2] at herr
            cases hjn : jsonName field with
            | mk jname skip =>
              rw [hjn] at herr
              cases skip with
              | true =>
                dsimp only [] at herr
                exact ihP rest st sid sc e herr hsplit.2 (by omega) hg hc
              | false =>
                dsimp only [] at herr
                by_cases hfil : (field.tagFormat = gs "binary" ∨ field.tagFormat = gs "file")
                · have hfb : decide (field.tagFormat = gs "binary" ∨
                      field.tagFormat = gs "file") = true := by simp [hfil]
                  simp only [hfb, if_true, Bind.bind, Except.bind, pure, Except.pure] at herr
                  repeat' split at herr
                  all_goals exact ihP rest _ sid _ e herr hsplit.2 (by omega) hg hc
                · have hfb : decide (field.tagFormat = gs "binary" ∨
                      field.tagFormat = gs "file") = false := by simp [hfil]
                  simp only [hfb, Bool.false_eq_true, if_false] at herr
                  rcases (except_bind_error _ _ _).mp herr with hm | ⟨⟨st₁, childRef⟩, hok, hkk⟩
                  · exact ihF field.fieldType st e hm hsplit.1 (by omega) hg hc
                  · obtain ⟨hg₁, hm₁⟩ :=
                      (builder_good env plugins hinj f).1 st field.fieldType st₁ childRef hok hg
                    have hc₁ := hm₁ p n rSelf hn hc
                    dsimp only [] at hkk
                    repeat' split at hkk
                    all_goals exact ihP rest _ sid _ e hkk hsplit.2 (by omega) hg₁ hc₁

/-- C3: a named struct type whose fields refer back to itself —
directly or through pointers, slices, arrays or string-keyed maps —
and otherwise mention only primitive leaf types is built to
completion: `buildStructSchema` caches the type's entry before
populating its fields, every recursive occurrence met during
population resolves to that cached entry instead of recursing, and the
non-null builder succeeds within the computable fuel bound
`popNeed fds + 3`, provided the schema-generation hooks succeed. -/
theorem recursive_struct_terminates (env : TypeEnv) (plugins : List Plugin)
    (hinj : EnvInj env) (p n : GoStr) (hn : n ≠ []) (fds : GoFields)
    (henv : env.lookup (p, n) = some fds)
    (hfields : selfPrimFields (.named p n) fds = true)
    (hhooks : ∀ nm s, ∃ s', ExecuteOnSchemaGenerate plugins nm s = .ok s')
    (st : BuildState) (hg : GoodSt env st) :
    exceptIsOk (schemaRefNonNull env plugins (popNeed fds + 3) st (.named p n)) = true := by
  apply exceptIsOk_of_ne_error
  intro e herr
  rw [show popNeed fds + 3 = popNeed fds + 2 + 1 from rfl] at herr
  rw [schemaRefNonNull_succ] at herr
  cases hcl : st.schemaCache.lookup (GoType.named p n) with
  | some cached =>
    rw [hcl] at herr
    exact Except.noConfusion herr
  | none =>
    rw [hcl] at herr
    dsimp only [] at herr
    rw [show popNeed fds + 2 = popNeed fds + 1 + 1 from rfl] at herr
    rw [buildStructSchema_succ] at herr
    have hsf : structFields env (GoType.named p n) = some fds := henv
    rw [hsf] at herr
    dsimp only [] at herr
    have hcn : componentName (GoType.named p n) ≠ [] := componentName_ne_nil p n hn
    rw [if_pos hcn] at herr
    rw [hcl] at herr
    rcases (except_bind_error _ _ _).mp herr with hm | ⟨⟨st₃, pop⟩, hok, hkk⟩
    · obtain ⟨hg₂, hm₂⟩ := good_register env hinj st p n ⟨[], some st.nextId⟩ fds hsf hcl hg
        ⟨st.nextId + 1,
          (st.nextId,
            { NewObjectSchema with properties := some [], required := [], allOf := [] })
            :: st.store,
          (GoType.named p n, (⟨[], some st.nextId⟩ : SchemaRef)) :: st.schemaCache,
          mapSet (componentName (GoType.named p n)) ⟨[], some st.nextId⟩ st.schemas⟩
        rfl rfl
      exact (selfPrim_no_error env plugins hinj p n hn ⟨[], some st.nextId⟩
          (popNeed fds + 1)).2.2 fds _ _ _ e hm hfields (by omega) hg₂
        (lookup_cons_self _ _ _)
    · dsimp only [] at hkk
      obtain ⟨s', hs'⟩ := hhooks (componentName (GoType.named p n)) pop
      rw [hs'] at hkk
      dsimp only [] at hkk
      exact Except.noConfusion hkk

/-- Witness for `recursive_struct_terminates`: the self-referential
`models.User` struct (a string field and a `*User` field) builds
successfully from the empty state. -/
theorem recursive_struct_terminates_witness :
    exceptIsOk (schemaRefNonNull exEnv [] (popNeed exUserFields + 3) {}
      (.named (gs "models") (gs "User"))) = true :=
  recursive_struct_terminates exEnv [] envInj_exEnv (gs "models") (gs "User") (by decide)
    exUserFields (by decide) (by decide) (fun nm s => ⟨s, rfl⟩) {} (goodSt_empty exEnv)

end Apix
